import Mathlib

/-!
# multi-agent-testing: the orchestration core

A shallow embedding of the Go backend's request fan-out:

* `model`    : the request / response records (`internal/model`);
* `config`   : the static configuration (`internal/config`);
* `base`, `zhipu` : the provider capability and the zhipu adapter's pure part;
* `service`  : `NewMultiModelService`, `initProviders`, `ExecuteTest`, `countSuccessful`;
* `handler`  : the HTTP handler's `ExecuteTest`.

Go maps are association lists read first-binding-wins and written by replacing
the key.  Clock readings are integers (nanoseconds on Go's monotonic clock).
Everything the outside world decides during one `ExecuteTest` call (what each
provider call returns, how the goroutines interleave, what the clock shows) is
gathered in an `Env` value over which the theorems quantify.  The `results` map
holds pointers: `ExecuteTestAt addr` runs the call with the i-th provider call
handing back the object at address `addr i`, and `ExecuteTest` is the run in
which every call hands back an object of its own.
-/

namespace MultiAgentTesting

/-! ## Go maps with string keys -/

/-- A Go `map[string]V`: association list, the first binding of a key is the live one. -/
abbrev GoMap (V : Type) := List (String × V)

namespace GoMap

variable {V : Type}

/-- The `v, ok := m[k]` read. -/
def get : GoMap V → String → Option V
  | [], _ => none
  | (k', v) :: rest, k => if k' = k then some v else get rest k

/-- The `m[k] = v` write: any former binding of `k` is dropped. -/
def set (m : GoMap V) (k : String) (v : V) : GoMap V :=
  (k, v) :: m.filter (fun e => !decide (e.1 = k))

/-- The keys present in the map. -/
def keys (m : GoMap V) : List String := m.map Prod.fst

end GoMap

/-! ## Time -/

/-- A `time.Time` reading: nanoseconds on the process's monotonic clock. -/
abbrev Time := Int

/-- A `time.Duration`: nanoseconds. -/
abbrev Duration := Int

/-- The `t.Sub(u)` difference. -/
def Time.Sub (t u : Time) : Duration := t - u

/-- The `d.Milliseconds()` conversion: integer division by 1e6, truncating toward zero. -/
def Duration.Milliseconds (d : Duration) : Int := Int.tdiv d 1000000

/-- The `int(d.Seconds())` conversion used for provider timeouts.  The source goes through
`float64`; this integer division agrees with it for every timeout below 2^22 seconds and
the embedding covers that range only (from about 2^24 seconds on the float sum can round
up to the next second). -/
def Duration.SecondsInt (d : Duration) : Int := Int.tdiv d 1000000000

/-! ## internal/model -/

namespace model

/-- One prior turn of the conversation. -/
structure Message where
  Role : String
  Content : String
  deriving DecidableEq

/-- The prompt configuration shared by all models of one request. -/
structure PromptSet where
  System : String
  User : String
  AI : String
  Message : List Message
  deriving DecidableEq

/-- A single target model; `Config` holds the untyped values as their JSON text. -/
structure ModelReq where
  Name : String
  Provider : String
  Config : List (String × String)
  deriving DecidableEq

/-- The multi-model test request. -/
structure TestRequest where
  Prompts : PromptSet
  Models : List ModelReq
  deriving DecidableEq

/-- The request handed to one provider. -/
structure CallProvidersRequest where
  Prompts : PromptSet
  Models : ModelReq
  deriving DecidableEq

/-- The response of one model. -/
structure ModelResponse where
  ModelName : String
  Provider : String
  Content : String
  Error : String
  Success : Bool
  TokensUsed : Int
  ResponseTime : Int
  StartTime : Time
  EndTime : Time
  deriving DecidableEq

/-- The aggregate of one `ExecuteTest` call. -/
structure TestResult where
  Results : GoMap ModelResponse
  StartTime : Time
  EndTime : Time
  Duration : Int
  deriving DecidableEq

/-- The response envelope; `Data` is the `*TestResult` payload (absent on errors). -/
structure Response where
  Code : Int
  Message : String
  Data : Option TestResult
  deriving DecidableEq

/-- One block of a streamed response. -/
structure StreamChunk where
  Model : String
  Content : String
  Done : Bool
  Error : String
  deriving DecidableEq

/-- Envelope of a successful call; `data` is the pointer handed in, `none` for nil. -/
def NewSuccessResponse (data : Option TestResult) : Response :=
  { Code := 200, Message := "success", Data := data }

/-- Envelope of a failed call. -/
def NewErrorResponse (code : Int) (message : String) : Response :=
  { Code := code, Message := message, Data := none }

end model

/-! ## internal/config -/

namespace config

/-- Configuration of one backend. -/
structure ModelConfig where
  ApiKey : String
  BaseURL : String
  Timeout : Duration
  Enabled : Bool
  deriving DecidableEq

/-- The part of the configuration the service reads. -/
structure Config where
  Models : GoMap ModelConfig
  deriving DecidableEq

end config

/-! ## internal/providers -/

namespace base

/-- The configuration handed to a provider constructor. -/
structure ProviderConfig where
  ApiKey : String
  BaseURL : String
  Timeout : Int
  deriving DecidableEq

end base

namespace zhipu

/-- The zhipu provider. -/
structure Provider where
  config : base.ProviderConfig
  deriving DecidableEq

/-- Constructor of the zhipu provider. -/
def NewProvider (config : base.ProviderConfig) : Provider := { config := config }

/-- The provider's name. -/
def Provider.Name (_p : Provider) : String := "zhipu"

/-- Configuration check: `none` is Go's nil error, `some msg` an error with that message.
The `config` argument is ignored, as in the source. -/
def Provider.ValidateConfig (p : Provider) (_config : List (String × String)) : Option String :=
  if p.config.ApiKey = "" then some "zhipu API key is required" else none

/-- The chat message of the eino `schema` package, reduced to the fields read here. -/
structure SchemaMessage where
  Role : String
  Content : String
  deriving DecidableEq

/-- The constructor `schema.UserMessage`. -/
def UserMessage (content : String) : SchemaMessage := { Role := "user", Content := content }

/-- The constructor `schema.AssistantMessage` (called with no tool calls). -/
def AssistantMessage (content : String) : SchemaMessage :=
  { Role := "assistant", Content := content }

/-- What the aggo and eino libraries and the clock hand to one `Call`. -/
structure CallEnv where
  /-- Clock reading at entry. -/
  startTime : Time
  /-- The error of `model.NewChatModel`, `none` for nil. -/
  chatModelErr : Option String
  /-- The error of `agent.NewAgent`, `none` for nil. -/
  agentErr : Option String
  /-- The pair returned by `ag.Generate` for a system prompt and a message list. -/
  generate : String → List SchemaMessage → Option SchemaMessage × Option String
  /-- The first clock reading taken after the library call that decided the path. -/
  now1 : Time
  /-- The clock reading taken after `now1` (failure paths only). -/
  now2 : Time

/-- How a `Call` ends. -/
inductive CallResult where
  /-- The library returned neither a response nor an error and `response.Content`
  dereferenced nil. -/
  | panicked
  /-- The pair `(*ModelResponse, error)` returned, `none` for nil. -/
  | returned (resp : Option model.ModelResponse) (err : Option String)
  deriving DecidableEq

/-- The message list built from the prior turns: turns of other roles are skipped. -/
def buildMessages (turns : List model.Message) : List SchemaMessage :=
  turns.foldl
    (fun messages v =>
      if v.Role = "user" then messages ++ [UserMessage v.Content]
      else if v.Role = "assistant" then messages ++ [AssistantMessage v.Content]
      else messages)
    []

/-- The non-streaming call.  In the failure literals `time.Since(startTime)` reads the
clock (`now1`) before the `EndTime` field reads it again (`now2`). -/
def Provider.Call (p : Provider) (env : CallEnv) (req : model.CallProvidersRequest) :
    CallResult :=
  let startTime := env.startTime
  match env.chatModelErr with
  | some err =>
    CallResult.returned
      (some { ModelName := req.Models.Name
              Provider := p.Name
              Content := ""
              Success := false
              Error := err
              TokensUsed := 0
              ResponseTime := (env.now1.Sub startTime).Milliseconds
              StartTime := startTime
              EndTime := env.now2 })
      (some err)
  | none =>
    let systemPrompt := if req.Prompts.System ≠ "" then req.Prompts.System else ""
    match env.agentErr with
    | some err =>
      CallResult.returned
        (some { ModelName := "gpt-5-mini"
                Provider := p.Name
                Content := ""
                Success := false
                Error := err
                TokensUsed := 0
                ResponseTime := (env.now1.Sub startTime).Milliseconds
                StartTime := startTime
                EndTime := env.now2 })
        (some err)
    | none =>
      let messages := buildMessages req.Prompts.Message
      match env.generate systemPrompt messages with
      | (_, some err) =>
        CallResult.returned
          (some { ModelName := req.Models.Name
                  Provider := p.Name
                  Content := ""
                  Success := false
                  Error := err
                  TokensUsed := 0
                  ResponseTime := (env.now1.Sub startTime).Milliseconds
                  StartTime := startTime
                  EndTime := env.now2 })
          (some err)
      | (none, none) => CallResult.panicked
      | (some response, none) =>
        let endTime := env.now1
        let responseTime := (endTime.Sub startTime).Milliseconds
        CallResult.returned
          (some { ModelName := req.Models.Name
                  Provider := p.Name
                  Content := response.Content
                  Success := true
                  Error := ""
                  TokensUsed := 0
                  ResponseTime := responseTime
                  StartTime := startTime
                  EndTime := endTime })
          none

/-- The simulated fragments sent by `Stream`. -/
def streamChunks : List String := ["这是", "zhipu", "模型的", "流式", "响应", "。"]

/-- The chunk sent for one fragment. -/
def contentChunk (chunk : String) : model.StreamChunk :=
  { Model := "gpt-4", Content := chunk, Done := false, Error := "" }

/-- The end marker sent after the loop. -/
def endChunk : model.StreamChunk :=
  { Model := "gpt-4", Content := "", Done := true, Error := "" }

/-- The producer goroutine of `Stream`, from its i-th loop iteration on: `cancelled i`
tells whether the `select` of iteration `i` takes the `ctx.Done()` branch.  The channel
holds 10 elements and at most 7 are sent, so a send never blocks.  The list is what the
channel delivers before it is closed. -/
def produce (cancelled : Nat → Bool) : Nat → List String → List model.StreamChunk
  | _, [] => [endChunk]
  | i, chunk :: rest =>
    if cancelled i then []
    else contentChunk chunk :: produce cancelled (i + 1) rest

/-- The streaming call: the chunks the returned channel delivers, and the nil error. -/
def Provider.Stream (_p : Provider) (cancelled : Nat → Bool)
    (_req : model.CallProvidersRequest) : List model.StreamChunk × Option String :=
  (produce cancelled 0 streamChunks, none)

end zhipu

namespace base

/-- A value of the `ModelProvider` interface: one alternative per implementing package.
The openai, deepseek and minimax packages are not part of the sources at hand; of their
providers only the configuration passed to `NewProvider` is recorded. -/
inductive ModelProvider where
  | openai (config : ProviderConfig)
  | deepseek (config : ProviderConfig)
  | minimax (config : ProviderConfig)
  | zhipu (p : zhipu.Provider)
  deriving DecidableEq

end base

/-! ## internal/service -/

namespace service

open model

/-- The multi-model test service. -/
structure MultiModelService where
  providers : GoMap base.ModelProvider
  config : config.Config
  deriving DecidableEq

/-- The `base.ProviderConfig` literal built from a backend's configuration. -/
def providerConfig (modelCfg : config.ModelConfig) : base.ProviderConfig :=
  { ApiKey := modelCfg.ApiKey, BaseURL := modelCfg.BaseURL,
    Timeout := Duration.SecondsInt modelCfg.Timeout }

/-- One `if modelCfg, ok := s.config.Models[key]; ok && modelCfg.Enabled` block. -/
def MultiModelService.initOne (s : MultiModelService) (key : String)
    (mk : base.ProviderConfig → base.ModelProvider) : MultiModelService :=
  match s.config.Models.get key with
  | some modelCfg =>
    if modelCfg.Enabled then
      { s with providers := s.providers.set key (mk (providerConfig modelCfg)) }
    else s
  | none => s

/-- Registers every enabled backend; `ValidateConfig` is not consulted. -/
def MultiModelService.initProviders (s : MultiModelService) : MultiModelService :=
  let s := s.initOne "openai" base.ModelProvider.openai
  let s := s.initOne "deepseek" base.ModelProvider.deepseek
  let s := s.initOne "minimax" base.ModelProvider.minimax
  let s := s.initOne "zhipu" (fun c => base.ModelProvider.zhipu (zhipu.NewProvider c))
  s

/-- Creates the service and its provider registry. -/
def NewMultiModelService (cfg : config.Config) : MultiModelService :=
  let service : MultiModelService := { providers := [], config := cfg }
  service.initProviders

/-- What `provider.Call` handed back: Go's `(*ModelResponse, error)` pair, `none` for nil.
The field `resp` is the content of the object the returned pointer refers to; which object
that is (its address) is given separately, see `runTask`. -/
structure CallOutcome where
  resp : Option ModelResponse
  err : Option String
  deriving DecidableEq

/-- Everything the outside world decides during one `ExecuteTest` call. -/
structure Env where
  /-- Clock reading at entry (the first `time.Now()`). -/
  startTime : Time
  /-- Clock reading taken after `g.Wait()`. -/
  endTime : Time
  /-- What `provider.Call` returns to the task of the i-th requested model. -/
  calls : Nat → CallOutcome
  /-- The two `time.Now()` readings taken by the i-th task when it records a failure. -/
  failStart : Nat → Time
  failEnd : Nat → Time
  /-- The scheduler's choices: see `interleave`. -/
  picks : List Nat

/-- Puts `t` at position `n` of `l` (at the end when `l` is shorter). -/
def insertAt {τ : Type} (t : τ) : Nat → List τ → List τ
  | 0, l => t :: l
  | _ + 1, [] => [t]
  | n + 1, x :: xs => x :: insertAt t n xs

/-- The order in which the goroutines started for `tasks` take effect on the shared state.
Each task acts on the shared state once (one write under the mutex, or one error handed to
the group), so a run is an ordering of the tasks; `picks` selects which one, and every
ordering is selected by some `picks` (`interleave_complete`). -/
def interleave {τ : Type} : List τ → List Nat → List τ
  | [], _ => []
  | t :: ts, picks => insertAt t (picks.headD 0) (interleave ts picks.tail)

/-- A value of type `*ModelResponse` held by the `results` map. -/
inductive Ref where
  /-- The pointer to the failure literal a task allocated itself: nothing else refers to
  that object and nothing writes to it afterwards, so it is kept by value. -/
  | literal (v : ModelResponse)
  /-- The pointer a provider call handed back: the object at address `a`. -/
  | object (a : Nat)
  deriving DecidableEq

/-- The zero value of `ModelResponse` (the content of addresses nothing was stored at). -/
def zeroResponse : ModelResponse :=
  { ModelName := "", Provider := "", Content := "", Error := "", Success := false,
    TokensUsed := 0, ResponseTime := 0, StartTime := 0, EndTime := 0 }

/-- The state shared by the tasks of one call: the `results` map guarded by `mu`, whose
values are pointers; the response objects the providers handed back, by address; the
error kept by the errgroup (the first one returned wins); and whether a task crashed the
process by dereferencing a nil response. -/
structure GroupState where
  results : GoMap Ref
  heap : Nat → ModelResponse
  err : Option String
  panicked : Bool

/-- The entry a task records when its provider call fails with error message `e`. -/
def failureEntry (env : Env) (i : Nat) (modelReq : ModelReq) (e : String) : ModelResponse :=
  { ModelName := modelReq.Name
    Provider := modelReq.Provider
    Content := ""
    Error := e
    Success := false
    TokensUsed := 0
    ResponseTime := 0
    StartTime := env.failStart i
    EndTime := env.failEnd i }

/-- The error built by `fmt.Errorf("provider %s not found or not enabled", k)`. -/
def notFoundError (k : String) : String := "provider " ++ k ++ " not found or not enabled"

/-- The closure passed to `g.Go` for the i-th model, together with the errgroup's handling
of its return value.  `addr i` is the address of the object the i-th call hands back: on
success the task writes `ModelName` into that object and stores the pointer, it does not
copy the response.  Two calls with the same address hand back the same object. -/
def runTask (s : MultiModelService) (addr : Nat → Nat) (env : Env) (st : GroupState)
    (t : Nat × ModelReq) : GroupState :=
  let modelReq := t.2
  match s.providers.get modelReq.Provider with
  | none =>
    let err := notFoundError modelReq.Provider
    match st.err with
    | some _ => st
    | none => { st with err := some err }
  | some _provider =>
    match (env.calls t.1).err with
    | some e =>
      { st with results :=
          st.results.set modelReq.Name (Ref.literal (failureEntry env t.1 modelReq e)) }
    | none =>
      match (env.calls t.1).resp with
      | none => { st with panicked := true }
      | some resp =>
        { st with
          heap := fun a =>
            if a = addr t.1 then { resp with ModelName := modelReq.Name } else st.heap a
          results := st.results.set modelReq.Name (Ref.object (addr t.1)) }

/-- The tasks started by the `for _, _modelReq := range req.Models` loop, numbered from `i`. -/
def spawn : Nat → List ModelReq → List (Nat × ModelReq)
  | _, [] => []
  | i, m :: ms => (i, m) :: spawn (i + 1) ms

/-- How a call of `ExecuteTest` ends. -/
inductive Outcome where
  /-- A task dereferenced a nil response: the process crashes, nothing is returned. -/
  | panicked
  /-- The pair `(*TestResult, error)` returned, `none` for nil. -/
  | returned (result : Option TestResult) (err : Option String)
  deriving DecidableEq

/-- The tasks of one call, in the order in which they take effect. -/
def schedule (env : Env) (req : TestRequest) : List (Nat × ModelReq) :=
  interleave (spawn 0 req.Models) env.picks

/-- The state after `g.Wait()`: all tasks have run, in the order the scheduler chose. -/
def MultiModelService.waitState (s : MultiModelService) (addr : Nat → Nat) (env : Env)
    (req : TestRequest) : GroupState :=
  (schedule env req).foldl (runTask s addr env)
    { results := [], heap := fun _ => zeroResponse, err := none, panicked := false }

/-- The object a pointer refers to, given the objects by address. -/
def Ref.load (heap : Nat → ModelResponse) : Ref → ModelResponse
  | Ref.literal v => v
  | Ref.object a => heap a

/-- The `results` map as the caller reads it through its pointers. -/
def GroupState.read (st : GroupState) : GoMap ModelResponse :=
  st.results.map (fun e => (e.1, Ref.load st.heap e.2))

/-- Runs the multi-model test, the i-th call handing back the object at address `addr i`.
The `Results` of the returned aggregate are given as read through the stored pointers. -/
def MultiModelService.ExecuteTestAt (s : MultiModelService) (addr : Nat → Nat) (env : Env)
    (req : TestRequest) : Outcome :=
  let startTime := env.startTime
  let st := s.waitState addr env req
  if st.panicked then Outcome.panicked
  else
    match st.err with
    | some err => Outcome.returned none (some err)
    | none =>
      let endTime := env.endTime
      let duration := (endTime.Sub startTime).Milliseconds
      Outcome.returned
        (some { Results := st.read, StartTime := startTime, EndTime := endTime,
                Duration := duration })
        none

/-- Runs the multi-model test when every call hands back an object of its own (the i-th
call the object at address `i`), as a provider that allocates its response per call
does. -/
def MultiModelService.ExecuteTest (s : MultiModelService) (env : Env) (req : TestRequest) :
    Outcome :=
  s.ExecuteTestAt (fun i => i) env req

/-- Counts the entries with `Success = true`. -/
def countSuccessful (results : GoMap ModelResponse) : Int :=
  results.foldl (fun count e => if e.2.Success then count + 1 else count) 0

/-- The object the i-th task leaves behind its pointer: the failure entry when the call
returned an error, else the response with `ModelName` overwritten; `none` when the call
returned neither (the task then crashes instead of storing anything). -/
def taskEntry (env : Env) (t : Nat × ModelReq) : Option ModelResponse :=
  match (env.calls t.1).err with
  | some e => some (failureEntry env t.1 t.2 e)
  | none => (env.calls t.1).resp.map (fun resp => { resp with ModelName := t.2.Name })

/-- The writes `results[name] = entry` performed by the tasks of `order`, in order. -/
def writes (env : Env) (order : List (Nat × ModelReq)) : List (String × ModelResponse) :=
  order.filterMap (fun t => (taskEntry env t).map (fun e => (t.2.Name, e)))

/-- The map after the writes `ps`, performed from left to right. -/
def setAll {V : Type} (m : GoMap V) (ps : List (String × V)) : GoMap V :=
  ps.foldl (fun m p => m.set p.1 p.2) m

/-- The pointer the i-th task stores under its model name, `none` when it crashes. -/
def taskRef (addr : Nat → Nat) (env : Env) (t : Nat × ModelReq) : Option Ref :=
  match (env.calls t.1).err with
  | some e => some (Ref.literal (failureEntry env t.1 t.2 e))
  | none => (env.calls t.1).resp.map (fun _ => Ref.object (addr t.1))

/-- The pointer writes `results[name] = ptr` performed by the tasks of `order`. -/
def refWrites (addr : Nat → Nat) (env : Env) (order : List (Nat × ModelReq)) :
    List (String × Ref) :=
  order.filterMap (fun t => (taskRef addr env t).map (fun r => (t.2.Name, r)))

/-- The objects after the i-th task wrote `ModelName` through the pointer it received. -/
def heapWrite (addr : Nat → Nat) (env : Env) (heap : Nat → ModelResponse)
    (t : Nat × ModelReq) : Nat → ModelResponse :=
  match (env.calls t.1).err, (env.calls t.1).resp with
  | none, some resp =>
    fun a => if a = addr t.1 then { resp with ModelName := t.2.Name } else heap a
  | _, _ => heap

/-- The i-th call handed back a response object (a nil error and a non-nil pointer). -/
def ReturnsObject (env : Env) (i : Nat) : Prop :=
  (env.calls i).err = none ∧ (env.calls i).resp ≠ none

/-- No two calls made for `req` hand back the same response object. -/
def NoSharing (addr : Nat → Nat) (env : Env) (req : TestRequest) : Prop :=
  ∀ i j m m', req.Models[i]? = some m → req.Models[j]? = some m' →
    ReturnsObject env i → ReturnsObject env j → addr i = addr j → i = j

/-- Every provider call made for `req` returns a success (a response) or an error. -/
def CallsReturn (s : MultiModelService) (env : Env) (req : TestRequest) : Prop :=
  ∀ i m, req.Models[i]? = some m → s.providers.get m.Provider ≠ none →
    (env.calls i).resp ≠ none ∨ (env.calls i).err ≠ none

/-- The call of the i-th task returned a nil error and a response with `Success = true`. -/
def callSucceeded (env : Env) (t : Nat × ModelReq) : Bool :=
  match (env.calls t.1).err, (env.calls t.1).resp with
  | none, some resp => resp.Success
  | _, _ => false

/-- The number of requested models whose call returned a nil error and a response with
`Success = true`. -/
def successfulCalls (env : Env) (req : TestRequest) : Int :=
  ((spawn 0 req.Models).filter (callSucceeded env)).length

end service

/-! ## internal/api/handler -/

namespace handler

open model service

/-- The HTTP status codes used. -/
def StatusOK : Int := 200

/-- Status 400. -/
def StatusBadRequest : Int := 400

/-- Status 500. -/
def StatusInternalServerError : Int := 500

/-- The test handler. -/
structure TestHandler where
  service : MultiModelService

/-- What one run of the handler did: the requests it passed to the service's
`ExecuteTest`, in order, and the `c.JSON(status, body)` it answered with (`none` when the
process crashed inside the service before any answer). -/
structure HandlerRun where
  serviceCalls : List TestRequest
  response : Option (Int × Response)
  deriving DecidableEq

/-- The handler of the test endpoint; `bound` is what `c.BindJSON` produced, `none` when
binding failed. -/
def TestHandler.ExecuteTest (h : TestHandler) (env : Env) (bound : Option TestRequest) :
    HandlerRun :=
  match bound with
  | none =>
    { serviceCalls := [],
      response := some (StatusBadRequest, NewErrorResponse 400 "Invalid request body") }
  | some req =>
    if req.Prompts.User = "" then
      { serviceCalls := [],
        response := some (StatusBadRequest, NewErrorResponse 400 "User prompt is required") }
    else if req.Models.length = 0 then
      { serviceCalls := [],
        response :=
          some (StatusBadRequest, NewErrorResponse 400 "At least one model is required") }
    else
      match h.service.ExecuteTest env req with
      | Outcome.panicked => { serviceCalls := [req], response := none }
      | Outcome.returned result err =>
        match err with
        | some e =>
          { serviceCalls := [req],
            response := some (StatusInternalServerError, NewErrorResponse 500 e) }
        | none =>
          { serviceCalls := [req], response := some (StatusOK, NewSuccessResponse result) }

end handler

/-! ## A worked request -/

namespace demo

open model service

/-- A registry with two backends. -/
def svc : MultiModelService :=
  { providers :=
      [("zhipu", base.ModelProvider.zhipu (zhipu.NewProvider
          { ApiKey := "k1", BaseURL := "https://zhipu.test", Timeout := 30 })),
       ("openai", base.ModelProvider.openai
          { ApiKey := "k2", BaseURL := "https://openai.test", Timeout := 30 })],
    config := { Models := [] } }

/-- Two models with distinct names, both on registered backends. -/
def req : TestRequest :=
  { Prompts := { System := "", User := "hi", AI := "", Message := [] },
    Models := [{ Name := "glm-4", Provider := "zhipu", Config := [] },
               { Name := "gpt-4.1", Provider := "openai", Config := [] }] }

/-- The same request with a third model on a backend that is not registered. -/
def reqMissing : TestRequest :=
  { req with Models := req.Models ++ [{ Name := "claude", Provider := "anthropic", Config := [] }] }

/-- What the first provider returns: a success measured inside the call. -/
def hello : ModelResponse :=
  { ModelName := "glm-4", Provider := "zhipu", Content := "hello", Error := "",
    Success := true, TokensUsed := 0, ResponseTime := 50,
    StartTime := 1000000, EndTime := 51000000 }

/-- The first call succeeds, every other call fails upstream; the second task takes
effect before the first. -/
def env : Env :=
  { startTime := 0, endTime := 60000000,
    calls := fun i =>
      if i = 0 then { resp := some hello, err := none }
      else { resp := none, err := some "upstream error" },
    failStart := fun _ => 20000000, failEnd := fun _ => 20000000,
    picks := [1] }

/-- The aggregate of the worked request. -/
def result : TestResult :=
  { Results :=
      [("glm-4", hello),
       ("gpt-4.1",
        { ModelName := "gpt-4.1", Provider := "openai", Content := "",
          Error := "upstream error", Success := false, TokensUsed := 0, ResponseTime := 0,
          StartTime := 20000000, EndTime := 20000000 })],
    StartTime := 0, EndTime := 60000000, Duration := 60 }

/-- Two models under one name, on registered backends. -/
def reqDup : TestRequest :=
  { req with Models := [{ Name := "m", Provider := "zhipu", Config := [] },
                        { Name := "m", Provider := "openai", Config := [] }] }

/-- Every call succeeds with `hello`. -/
def envAllOk : Env :=
  { env with calls := fun _ => { resp := some hello, err := none }, picks := [] }

/-- A provider that reports five seconds for a call inside a 60 ms run. -/
def envSlow : Env :=
  { env with calls := fun _ =>
      { resp := some { hello with ResponseTime := 5000 }, err := none } }

/-- Every call observes the cancelled context. -/
def envCancelled : Env :=
  { env with calls := fun _ => { resp := none, err := some "context canceled" } }

/-- Every call succeeds with `hello`; the second task takes effect before the first. -/
def envAllOkRev : Env :=
  { envAllOk with picks := [1] }

/-- A one-model request. -/
def reqOne : TestRequest :=
  { req with Models := [{ Name := "glm-4", Provider := "zhipu", Config := [] }] }

/-- A configuration that enables zhipu without an API key. -/
def cfgNoKey : config.Config :=
  { Models := [("zhipu", { ApiKey := "", BaseURL := "https://zhipu.test",
                           Timeout := 30000000000, Enabled := true })] }

/-- The request handed to the zhipu provider for the first model. -/
def callReq : CallProvidersRequest :=
  { Prompts := { System := "be brief", User := "hi", AI := "",
                 Message := [{ Role := "user", Content := "hi" },
                             { Role := "system", Content := "skipped" },
                             { Role := "assistant", Content := "hello" }] },
    Models := { Name := "glm-4", Provider := "zhipu", Config := [] } }

/-- The zhipu provider of the worked registry. -/
def zp : zhipu.Provider :=
  zhipu.NewProvider { ApiKey := "k1", BaseURL := "https://zhipu.test", Timeout := 30 }

/-- A call that succeeds after 50 ms. -/
def callOk : zhipu.CallEnv :=
  { startTime := 1000000, chatModelErr := none, agentErr := none,
    generate := fun _ _ => (some { Role := "assistant", Content := "hello" }, none),
    now1 := 51000000, now2 := 51000100 }

/-- A call whose chat model cannot be created; the two clock readings of the failure
literal fall on either side of a millisecond boundary. -/
def callNoModel : zhipu.CallEnv :=
  { callOk with startTime := 0, chatModelErr := some "invalid base url",
                now1 := 999999, now2 := 1000001 }

/-- A call whose agent cannot be created. -/
def callNoAgent : zhipu.CallEnv :=
  { callOk with agentErr := some "agent init failed" }

/-- A call whose generation fails upstream. -/
def callUpstream : zhipu.CallEnv :=
  { callOk with generate := fun _ _ => (none, some "upstream error") }

/-- An orchestrator run in which the two clock readings of a failure entry are a
millisecond apart. -/
def envTick : Env :=
  { envCancelled with failStart := fun _ => 20000000, failEnd := fun _ => 21000000 }

/-- A configuration with zhipu enabled and openai disabled. -/
def cfgTwo : config.Config :=
  { Models := [("zhipu", { ApiKey := "k1", BaseURL := "https://zhipu.test",
                           Timeout := 30000000000, Enabled := true }),
               ("openai", { ApiKey := "k2", BaseURL := "https://openai.test",
                            Timeout := 30000000000, Enabled := false }),
               ("anthropic", { ApiKey := "k3", BaseURL := "https://anthropic.test",
                               Timeout := 30000000000, Enabled := true })] }

end demo

/-! ## Lemmas: Go maps -/

namespace GoMap

variable {V : Type}

theorem get_set_self (m : GoMap V) (k : String) (v : V) : (m.set k v).get k = some v := by
  simp [set, get]

theorem get_filter_ne (m : GoMap V) (k k' : String) (h : k' ≠ k) :
    get (m.filter (fun e => !decide (e.1 = k))) k' = get m k' := by
  induction m with
  | nil => rfl
  | cons e rest ih =>
    obtain ⟨a, b⟩ := e
    by_cases hak : a = k
    · subst hak
      have : a ≠ k' := fun h' => h h'.symm
      simp [List.filter, get, this, ih]
    · by_cases hak' : a = k'
      · subst hak'
        simp [List.filter, get, hak]
      · simp [List.filter, get, hak, hak', ih]

theorem get_set_ne (m : GoMap V) (k k' : String) (v : V) (h : k' ≠ k) :
    (m.set k v).get k' = m.get k' := by
  have hk : k ≠ k' := fun h' => h h'.symm
  simp [set, get, hk, get_filter_ne m k k' h]

theorem mem_keys_set (m : GoMap V) (k x : String) (v : V) :
    x ∈ (m.set k v).keys ↔ x = k ∨ x ∈ m.keys := by
  simp only [set, keys, List.map_cons, List.mem_cons, List.mem_map, List.mem_filter,
    Bool.not_eq_true', decide_eq_false_iff_not]
  constructor
  · rintro (h | ⟨e, ⟨he, _⟩, rfl⟩)
    · exact Or.inl h
    · exact Or.inr ⟨e, he, rfl⟩
  · rintro (h | ⟨e, he, rfl⟩)
    · exact Or.inl h
    · by_cases hk : e.1 = k
      · exact Or.inl hk
      · exact Or.inr ⟨e, ⟨he, hk⟩, rfl⟩

theorem nodup_keys_set (m : GoMap V) (k : String) (v : V) (h : m.keys.Nodup) :
    (m.set k v).keys.Nodup := by
  simp only [set, keys, List.map_cons, List.nodup_cons, List.mem_map, List.mem_filter,
    Bool.not_eq_true', decide_eq_false_iff_not]
  refine ⟨?_, ?_⟩
  · rintro ⟨e, ⟨_, hne⟩, he⟩
    exact hne he
  · exact (List.filter_sublist m).map Prod.fst |>.nodup h

theorem mem_of_get (m : GoMap V) (k : String) (v : V) (h : m.get k = some v) : (k, v) ∈ m := by
  induction m with
  | nil => simp [get] at h
  | cons e rest ih =>
    obtain ⟨a, b⟩ := e
    by_cases hak : a = k
    · simp [get, hak] at h
      simp [hak, h]
    · simp [get, hak] at h
      exact List.mem_cons_of_mem _ (ih h)

theorem get_of_mem (m : GoMap V) (k : String) (v : V) (hnd : m.keys.Nodup) (h : (k, v) ∈ m) :
    m.get k = some v := by
  induction m with
  | nil => simp at h
  | cons e rest ih =>
    obtain ⟨a, b⟩ := e
    simp only [keys, List.map_cons, List.nodup_cons, List.mem_map] at hnd
    rcases List.mem_cons.mp h with h | h
    · cases h
      simp [get]
    · have hak : a ≠ k := fun hak => hnd.1 ⟨(k, v), h, hak.symm⟩
      simp only [get, hak, if_false]
      exact ih hnd.2 h

theorem get_ne_none_iff (m : GoMap V) (k : String) : m.get k ≠ none ↔ k ∈ m.keys := by
  induction m with
  | nil => simp [get, keys]
  | cons e rest ih =>
    obtain ⟨a, b⟩ := e
    by_cases hak : a = k
    · simp [get, keys, hak]
    · have hka : ¬ k = a := fun h => hak h.symm
      simpa [get, keys, hak, hka] using ih

theorem mem_set (m : GoMap V) (k : String) (v : V) (e : String × V) (h : e ∈ m.set k v) :
    e = (k, v) ∨ e ∈ m := by
  rcases List.mem_cons.mp h with h | h
  · exact Or.inl h
  · exact Or.inr (List.mem_filter.mp h).1

end GoMap

/-! ## Lemmas: scheduling -/

namespace service

open model

theorem insertAt_perm {τ : Type} (t : τ) (n : Nat) (l : List τ) :
    (insertAt t n l).Perm (t :: l) := by
  induction l generalizing n with
  | nil => cases n <;> exact List.Perm.refl _
  | cons x xs ih =>
    cases n with
    | zero => exact List.Perm.refl _
    | succ n => exact ((ih n).cons x).trans (List.Perm.swap t x xs)

theorem interleave_perm {τ : Type} (l : List τ) (picks : List Nat) :
    (interleave l picks).Perm l := by
  induction l generalizing picks with
  | nil => exact List.Perm.refl _
  | cons t ts ih => exact (insertAt_perm t _ _).trans ((ih picks.tail).cons t)

theorem insertAt_length_append {τ : Type} (t : τ) (a b : List τ) :
    insertAt t a.length (a ++ b) = a ++ t :: b := by
  induction a with
  | nil => cases b <;> rfl
  | cons x xs ih => simp [insertAt, ih]

/-- Every ordering of the tasks is produced by some scheduler choices. -/
theorem interleave_complete {τ : Type} (l l' : List τ) (h : l'.Perm l) :
    ∃ picks, interleave l picks = l' := by
  induction l generalizing l' with
  | nil => exact ⟨[], by simp [interleave, List.Perm.eq_nil h]⟩
  | cons t ts ih =>
    have ht : t ∈ l' := h.symm.subset (List.mem_cons_self t ts)
    obtain ⟨a, b, rfl⟩ := List.append_of_mem ht
    have hab : (a ++ b).Perm ts := (List.perm_middle.symm.trans h).cons_inv
    obtain ⟨picks, hp⟩ := ih (a ++ b) hab
    exact ⟨a.length :: picks, by simp [interleave, hp, insertAt_length_append]⟩

theorem spawn_map_snd (i : Nat) (ms : List ModelReq) : (spawn i ms).map Prod.snd = ms := by
  induction ms generalizing i with
  | nil => rfl
  | cons m ms ih => simp [spawn, ih]

theorem mem_spawn (i : Nat) (ms : List ModelReq) (t : Nat × ModelReq) :
    t ∈ spawn i ms ↔ ∃ j, ms[j]? = some t.2 ∧ t.1 = i + j := by
  induction ms generalizing i with
  | nil => simp [spawn]
  | cons m ms ih =>
    simp only [spawn, List.mem_cons, ih]
    constructor
    · rintro (rfl | ⟨j, hj, ht⟩)
      · exact ⟨0, by simp⟩
      · exact ⟨j + 1, by simpa using hj, by omega⟩
    · rintro ⟨j, hj, ht⟩
      cases j with
      | zero =>
        left
        simp at hj
        exact Prod.ext (by simpa using ht) hj.symm
      | succ j => exact Or.inr ⟨j, by simpa using hj, by omega⟩

/-! ## Lemmas: sequences of writes -/

theorem setAll_cons {V : Type} (m : GoMap V) (p : String × V)
    (ps : List (String × V)) : setAll m (p :: ps) = setAll (m.set p.1 p.2) ps := rfl

theorem mem_keys_setAll {V : Type} (ps : List (String × V)) (m : GoMap V)
    (x : String) : x ∈ (setAll m ps).keys ↔ x ∈ ps.map Prod.fst ∨ x ∈ m.keys := by
  induction ps generalizing m with
  | nil => simp [setAll]
  | cons p ps ih =>
    rw [setAll_cons, ih, GoMap.mem_keys_set]
    simp only [List.map_cons, List.mem_cons]
    tauto

theorem nodup_keys_setAll {V : Type} (ps : List (String × V)) (m : GoMap V)
    (h : m.keys.Nodup) : (setAll m ps).keys.Nodup := by
  induction ps generalizing m with
  | nil => exact h
  | cons p ps ih => exact ih _ (GoMap.nodup_keys_set m p.1 p.2 h)

theorem mem_setAll {V : Type} (ps : List (String × V)) (m : GoMap V)
    (e : String × V) (h : e ∈ setAll m ps) : e ∈ ps ∨ e ∈ m := by
  induction ps generalizing m with
  | nil => exact Or.inr h
  | cons p ps ih =>
    rcases ih _ h with h | h
    · exact Or.inl (List.mem_cons_of_mem _ h)
    · rcases GoMap.mem_set m p.1 p.2 e h with h | h
      · exact Or.inl (by simp [h])
      · exact Or.inr h

theorem get_setAll_of_not_mem {V : Type} (ps : List (String × V)) (m : GoMap V)
    (k : String) (h : k ∉ ps.map Prod.fst) : (setAll m ps).get k = m.get k := by
  induction ps generalizing m with
  | nil => rfl
  | cons p ps ih =>
    simp only [List.map_cons, List.mem_cons, not_or] at h
    rw [setAll_cons, ih _ h.2, GoMap.get_set_ne m p.1 k p.2 h.1]

theorem get_setAll_of_nodup {V : Type} (ps : List (String × V)) (m : GoMap V)
    (k : String) (v : V) (hnd : (ps.map Prod.fst).Nodup) (h : (k, v) ∈ ps) :
    (setAll m ps).get k = some v := by
  induction ps generalizing m with
  | nil => simp at h
  | cons p ps ih =>
    simp only [List.map_cons, List.nodup_cons] at hnd
    rw [setAll_cons]
    rcases List.mem_cons.mp h with h | h
    · subst h
      rw [get_setAll_of_not_mem ps _ _ hnd.1, GoMap.get_set_self]
    · exact ih _ hnd.2 h

theorem setAll_of_fresh {V : Type} (ps : List (String × V)) (m : GoMap V)
    (hnd : (ps.map Prod.fst).Nodup) (hfresh : ∀ p ∈ ps, p.1 ∉ m.keys) :
    setAll m ps = ps.reverse ++ m := by
  induction ps generalizing m with
  | nil => rfl
  | cons p ps ih =>
    simp only [List.map_cons, List.nodup_cons] at hnd
    have hp : p.1 ∉ m.keys := hfresh p (List.mem_cons_self _ _)
    have hset : m.set p.1 p.2 = p :: m := by
      simp only [GoMap.set]
      congr 1
      apply List.filter_eq_self.mpr
      intro e he
      have : e.1 ≠ p.1 := fun h => hp (by simpa [GoMap.keys] using ⟨e.2, by simpa [← h] using he⟩)
      simpa using this
    rw [setAll_cons, hset, ih _ hnd.2]
    · simp
    · intro q hq
      simp only [GoMap.keys, List.map_cons, List.mem_cons, not_or]
      refine ⟨fun h => hnd.1 ?_, hfresh q (List.mem_cons_of_mem _ hq)⟩
      rw [← h]
      exact List.mem_map_of_mem Prod.fst hq

/-! ## Lemmas: one task, then all of them -/

theorem runTask_missing (s : MultiModelService) (addr : Nat → Nat) (env : Env)
    (st : GroupState) (t : Nat × ModelReq) (h : s.providers.get t.2.Provider = none) :
    runTask s addr env st t
      = { st with err := some (st.err.getD (notFoundError t.2.Provider)) } := by
  obtain ⟨results, heap, err, panicked⟩ := st
  cases err <;> simp [runTask, h]

theorem taskRef_eq_none_iff (addr : Nat → Nat) (env : Env) (t : Nat × ModelReq) :
    taskRef addr env t = none ↔ taskEntry env t = none := by
  unfold taskRef taskEntry
  cases (env.calls t.1).err with
  | some e => simp
  | none => cases (env.calls t.1).resp <;> simp

theorem runTask_write (s : MultiModelService) (addr : Nat → Nat) (env : Env)
    (st : GroupState) (t : Nat × ModelReq) (r : Ref)
    (hp : s.providers.get t.2.Provider ≠ none) (hr : taskRef addr env t = some r) :
    runTask s addr env st t
      = { st with results := st.results.set t.2.Name r,
                  heap := heapWrite addr env st.heap t } := by
  obtain ⟨p, hp⟩ := Option.ne_none_iff_exists'.mp hp
  obtain ⟨results, heap, err, panicked⟩ := st
  unfold taskRef at hr
  cases herr : (env.calls t.1).err with
  | some x =>
    simp only [herr, Option.some.injEq] at hr
    simp [runTask, hp, herr, heapWrite, hr]
  | none =>
    simp only [herr] at hr
    cases hresp : (env.calls t.1).resp with
    | none => simp [hresp] at hr
    | some x =>
      simp only [hresp, Option.map_some', Option.some.injEq] at hr
      simp [runTask, hp, herr, hresp, heapWrite, hr]

theorem runTask_crash (s : MultiModelService) (addr : Nat → Nat) (env : Env)
    (st : GroupState) (t : Nat × ModelReq) (hp : s.providers.get t.2.Provider ≠ none)
    (he : taskEntry env t = none) :
    runTask s addr env st t = { st with panicked := true } := by
  obtain ⟨p, hp⟩ := Option.ne_none_iff_exists'.mp hp
  simp only [runTask, hp]
  unfold taskEntry at he
  cases herr : (env.calls t.1).err with
  | some x => simp [herr] at he
  | none =>
    simp only [herr] at he
    cases hresp : (env.calls t.1).resp with
    | none => rfl
    | some r => simp [hresp] at he

theorem taskRef_of_entry (addr : Nat → Nat) (env : Env) (t : Nat × ModelReq)
    (h : taskEntry env t ≠ none) : ∃ r, taskRef addr env t = some r :=
  Option.ne_none_iff_exists'.mp (fun h0 => h ((taskRef_eq_none_iff addr env t).mp h0))

theorem runTask_err_of_registered (s : MultiModelService) (addr : Nat → Nat) (env : Env)
    (st : GroupState) (t : Nat × ModelReq) (hp : s.providers.get t.2.Provider ≠ none) :
    (runTask s addr env st t).err = st.err := by
  cases he : taskEntry env t with
  | none => rw [runTask_crash s addr env st t hp he]
  | some e =>
    obtain ⟨r, hr⟩ := taskRef_of_entry addr env t (by simp [he])
    rw [runTask_write s addr env st t r hp hr]

theorem writes_cons (env : Env) (t : Nat × ModelReq) (order : List (Nat × ModelReq))
    (e : ModelResponse) (he : taskEntry env t = some e) :
    writes env (t :: order) = (t.2.Name, e) :: writes env order := by
  simp [writes, he]

theorem refWrites_cons (addr : Nat → Nat) (env : Env) (t : Nat × ModelReq)
    (order : List (Nat × ModelReq)) (r : Ref) (hr : taskRef addr env t = some r) :
    refWrites addr env (t :: order) = (t.2.Name, r) :: refWrites addr env order := by
  simp [refWrites, hr]

theorem foldl_runTask_writes (s : MultiModelService) (addr : Nat → Nat) (env : Env)
    (order : List (Nat × ModelReq)) (st : GroupState)
    (h : ∀ t ∈ order, s.providers.get t.2.Provider ≠ none ∧ taskEntry env t ≠ none) :
    order.foldl (runTask s addr env) st
      = { st with results := setAll st.results (refWrites addr env order),
                  heap := order.foldl (heapWrite addr env) st.heap } := by
  induction order generalizing st with
  | nil => rfl
  | cons t order ih =>
    obtain ⟨hp, he⟩ := h t (List.mem_cons_self _ _)
    obtain ⟨r, hr⟩ := taskRef_of_entry addr env t he
    rw [List.foldl_cons, runTask_write s addr env st t r hp hr,
      ih _ (fun t' ht' => h t' (List.mem_cons_of_mem _ ht')),
      refWrites_cons addr env t order r hr]
    rfl

theorem foldl_runTask_panicked (s : MultiModelService) (addr : Nat → Nat) (env : Env)
    (order : List (Nat × ModelReq)) (st : GroupState) :
    (order.foldl (runTask s addr env) st).panicked = true ↔
      st.panicked = true ∨
        ∃ t ∈ order, s.providers.get t.2.Provider ≠ none ∧ taskEntry env t = none := by
  induction order generalizing st with
  | nil => simp
  | cons t order ih =>
    rw [List.foldl_cons, ih]
    by_cases hp : s.providers.get t.2.Provider = none
    · rw [runTask_missing s addr env st t hp]
      simp [hp]
    · cases he : taskEntry env t with
      | none =>
        rw [runTask_crash s addr env st t hp he]
        simp [hp, he]
      | some e =>
        obtain ⟨r, hr⟩ := taskRef_of_entry addr env t (by simp [he])
        rw [runTask_write s addr env st t r hp hr]
        simp [hp, he]

theorem foldl_runTask_err_some (s : MultiModelService) (addr : Nat → Nat) (env : Env)
    (order : List (Nat × ModelReq)) (st : GroupState) (e : String) (h : st.err = some e) :
    (order.foldl (runTask s addr env) st).err = some e := by
  induction order generalizing st with
  | nil => exact h
  | cons t order ih =>
    rw [List.foldl_cons]
    apply ih
    by_cases hp : s.providers.get t.2.Provider = none
    · rw [runTask_missing s addr env st t hp]
      simp [h]
    · rw [runTask_err_of_registered s addr env st t hp, h]

theorem foldl_runTask_err_none (s : MultiModelService) (addr : Nat → Nat) (env : Env)
    (order : List (Nat × ModelReq)) (st : GroupState) (h : st.err = none) :
    ((order.foldl (runTask s addr env) st).err = none ∧
        ∀ t ∈ order, s.providers.get t.2.Provider ≠ none) ∨
      ∃ t ∈ order, s.providers.get t.2.Provider = none ∧
        (order.foldl (runTask s addr env) st).err = some (notFoundError t.2.Provider) := by
  induction order generalizing st with
  | nil => exact Or.inl ⟨h, by simp⟩
  | cons t order ih =>
    rw [List.foldl_cons]
    by_cases hp : s.providers.get t.2.Provider = none
    · refine Or.inr ⟨t, List.mem_cons_self _ _, hp, ?_⟩
      apply foldl_runTask_err_some
      rw [runTask_missing s addr env st t hp]
      simp [h]
    · have h' : (runTask s addr env st t).err = none := by
        rw [runTask_err_of_registered s addr env st t hp, h]
      rcases ih _ h' with ⟨h1, h2⟩ | ⟨t', ht', h1, h2⟩
      · refine Or.inl ⟨h1, ?_⟩
        intro t' ht'
        rcases List.mem_cons.mp ht' with rfl | ht'
        · exact hp
        · exact h2 t' ht'
      · exact Or.inr ⟨t', List.mem_cons_of_mem _ ht', h1, h2⟩

/-! ## Lemmas: the objects behind the pointers -/

theorem heapWrite_of_object (addr : Nat → Nat) (env : Env) (heap : Nat → ModelResponse)
    (t : Nat × ModelReq) (resp : ModelResponse) (herr : (env.calls t.1).err = none)
    (hresp : (env.calls t.1).resp = some resp) :
    heapWrite addr env heap t
      = fun a => if a = addr t.1 then { resp with ModelName := t.2.Name } else heap a := by
  simp [heapWrite, herr, hresp]

theorem heapWrite_of_not (addr : Nat → Nat) (env : Env) (heap : Nat → ModelResponse)
    (t : Nat × ModelReq) (h : ¬ ReturnsObject env t.1) : heapWrite addr env heap t = heap := by
  unfold heapWrite
  unfold ReturnsObject at h
  cases herr : (env.calls t.1).err with
  | some e => rfl
  | none =>
    cases hresp : (env.calls t.1).resp with
    | none => rfl
    | some r => exact absurd ⟨herr, by simp [hresp]⟩ h

/-- The object at address `a` after all tasks of `order`: either one of them wrote its
response there last, or none of them was handed that object and it is untouched. -/
theorem foldl_heapWrite_cases (addr : Nat → Nat) (env : Env)
    (order : List (Nat × ModelReq)) (heap : Nat → ModelResponse) (a : Nat) :
    (∃ t ∈ order, ∃ resp, (env.calls t.1).err = none ∧ (env.calls t.1).resp = some resp ∧
        addr t.1 = a ∧
        (order.foldl (heapWrite addr env) heap) a = { resp with ModelName := t.2.Name }) ∨
      ((∀ t ∈ order, ReturnsObject env t.1 → addr t.1 ≠ a) ∧
        (order.foldl (heapWrite addr env) heap) a = heap a) := by
  induction order generalizing heap with
  | nil => exact Or.inr ⟨by simp, rfl⟩
  | cons t order ih =>
    rw [List.foldl_cons]
    rcases ih (heapWrite addr env heap t) with ⟨u, hu, resp, h1, h2, h3, h4⟩ | ⟨hno, hsame⟩
    · exact Or.inl ⟨u, List.mem_cons_of_mem _ hu, resp, h1, h2, h3, h4⟩
    · by_cases hobj : ReturnsObject env t.1
      · obtain ⟨herr, hresp⟩ := hobj
        obtain ⟨resp, hresp⟩ := Option.ne_none_iff_exists'.mp hresp
        by_cases ha : addr t.1 = a
        · refine Or.inl ⟨t, List.mem_cons_self _ _, resp, herr, hresp, ha, ?_⟩
          rw [hsame, heapWrite_of_object addr env heap t resp herr hresp]
          simp [ha]
        · refine Or.inr ⟨?_, ?_⟩
          · intro u hu
            rcases List.mem_cons.mp hu with rfl | hu
            · exact fun _ => ha
            · exact hno u hu
          · rw [hsame, heapWrite_of_object addr env heap t resp herr hresp]
            have : ¬ a = addr t.1 := fun h => ha h.symm
            simp [this]
      · refine Or.inr ⟨?_, ?_⟩
        · intro u hu
          rcases List.mem_cons.mp hu with rfl | hu
          · exact fun h => absurd h hobj
          · exact hno u hu
        · rw [hsame, heapWrite_of_not addr env heap t hobj]

/-- Reading the pointer a task stored gives the object that task left, when no other
task of `order` was handed the same object. -/
theorem load_taskRef (addr : Nat → Nat) (env : Env) (order : List (Nat × ModelReq))
    (heap : Nat → ModelResponse) (t : Nat × ModelReq) (r : Ref) (v : ModelResponse)
    (ht : t ∈ order) (hr : taskRef addr env t = some r) (hv : taskEntry env t = some v)
    (honly : ∀ u ∈ order, ReturnsObject env u.1 → ReturnsObject env t.1 →
      addr u.1 = addr t.1 → u = t) :
    Ref.load (order.foldl (heapWrite addr env) heap) r = v := by
  unfold taskRef at hr
  unfold taskEntry at hv
  cases herr : (env.calls t.1).err with
  | some e =>
    simp only [herr, Option.some.injEq] at hr hv
    rw [← hr, ← hv]
    rfl
  | none =>
    simp only [herr, Option.map_eq_some'] at hr hv
    obtain ⟨x, hx, rfl⟩ := hr
    obtain ⟨y, hy, rfl⟩ := hv
    have hobj : ReturnsObject env t.1 := ⟨herr, by simp [hy]⟩
    show (order.foldl (heapWrite addr env) heap) (addr t.1) = _
    rcases foldl_heapWrite_cases addr env order heap (addr t.1) with
      ⟨u, hu, resp, h1, h2, h3, h4⟩ | ⟨hno, _⟩
    · have hut : u = t := honly u hu ⟨h1, by simp [h2]⟩ hobj h3
      subst hut
      rw [h4]
      rw [hy] at h2
      cases h2
      rfl
    · exact absurd rfl (hno t ht hobj)

theorem map_set {V W : Type} (g : V → W) (m : GoMap V) (k : String) (v : V) :
    (m.set k v).map (fun e => (e.1, g e.2)) = GoMap.set (m.map (fun e => (e.1, g e.2))) k (g v) := by
  simp only [GoMap.set, List.map_cons, List.filter_map]
  rfl

theorem map_setAll {V W : Type} (g : V → W) (ps : List (String × V)) (m : GoMap V) :
    (setAll m ps).map (fun e => (e.1, g e.2))
      = setAll (m.map (fun e => (e.1, g e.2))) (ps.map (fun e => (e.1, g e.2))) := by
  induction ps generalizing m with
  | nil => rfl
  | cons p ps ih => rw [setAll_cons, ih, map_set, List.map_cons, setAll_cons]

theorem get_map {V W : Type} (g : V → W) (m : GoMap V) (k : String) :
    GoMap.get (m.map (fun e => (e.1, g e.2))) k = (m.get k).map g := by
  induction m with
  | nil => rfl
  | cons e rest ih =>
    obtain ⟨a, b⟩ := e
    by_cases hak : a = k
    · simp [GoMap.get, hak]
    · simp [GoMap.get, hak, ih]

/-- Reading the stored pointers gives the stored objects, task by task. -/
theorem refWrites_load (addr : Nat → Nat) (env : Env) (order : List (Nat × ModelReq))
    (g : Ref → ModelResponse)
    (h : ∀ t ∈ order, ∀ r v, taskRef addr env t = some r → taskEntry env t = some v →
      g r = v) :
    (refWrites addr env order).map (fun e => (e.1, g e.2)) = writes env order := by
  induction order with
  | nil => rfl
  | cons t order ih =>
    have ih' := ih (fun u hu => h u (List.mem_cons_of_mem _ hu))
    cases he : taskEntry env t with
    | none =>
      have hr : taskRef addr env t = none := (taskRef_eq_none_iff addr env t).mpr he
      simp only [refWrites, writes, List.filterMap_cons, hr, he, Option.map_none']
      exact ih'
    | some v =>
      obtain ⟨r, hr⟩ := taskRef_of_entry addr env t (by simp [he])
      rw [refWrites_cons addr env t order r hr, writes_cons env t order v he, List.map_cons,
        ih', h t (List.mem_cons_self _ _) r v hr he]

/-! ## Lemmas: the tasks of a request -/

theorem mem_schedule (env : Env) (req : TestRequest) (t : Nat × ModelReq) :
    t ∈ schedule env req ↔ req.Models[t.1]? = some t.2 := by
  rw [schedule, (interleave_perm _ _).mem_iff, mem_spawn]
  constructor
  · rintro ⟨j, hj, ht⟩
    rw [ht, Nat.zero_add]
    exact hj
  · intro h
    exact ⟨t.1, h, by omega⟩

theorem schedule_perm (env : Env) (req : TestRequest) :
    (schedule env req).Perm (spawn 0 req.Models) := interleave_perm _ _

theorem schedule_names_perm (env : Env) (req : TestRequest) :
    ((schedule env req).map (fun t => t.2.Name)).Perm (req.Models.map (fun m => m.Name)) := by
  have h := (schedule_perm env req).map (fun t => t.2.Name)
  have h2 : (spawn 0 req.Models).map (fun t => t.2.Name)
      = req.Models.map (fun m => m.Name) := by
    rw [← spawn_map_snd 0 req.Models, List.map_map, spawn_map_snd]
    rfl
  rwa [h2] at h

theorem taskEntry_ne_none (env : Env) (t : Nat × ModelReq)
    (h : (env.calls t.1).resp ≠ none ∨ (env.calls t.1).err ≠ none) : taskEntry env t ≠ none := by
  unfold taskEntry
  cases herr : (env.calls t.1).err with
  | some e => simp
  | none =>
    rcases h with h | h
    · obtain ⟨r, hr⟩ := Option.ne_none_iff_exists'.mp h
      simp [hr]
    · exact absurd herr h

theorem all_write (s : MultiModelService) (env : Env) (req : TestRequest)
    (hreg : ∀ m ∈ req.Models, s.providers.get m.Provider ≠ none)
    (hcalls : CallsReturn s env req) :
    ∀ t ∈ schedule env req, s.providers.get t.2.Provider ≠ none ∧ taskEntry env t ≠ none := by
  intro t ht
  rw [mem_schedule] at ht
  have hmem : t.2 ∈ req.Models := List.getElem?_mem ht
  exact ⟨hreg _ hmem, taskEntry_ne_none env t (hcalls t.1 t.2 ht (hreg _ hmem))⟩

theorem noSharing_self (env : Env) (req : TestRequest) : NoSharing (fun i => i) env req :=
  fun _ _ _ _ _ _ _ _ h => h

/-- The state after `g.Wait()` when every task stored a pointer. -/
theorem waitState_of_writes (s : MultiModelService) (addr : Nat → Nat) (env : Env)
    (req : TestRequest)
    (h : ∀ t ∈ schedule env req,
      s.providers.get t.2.Provider ≠ none ∧ taskEntry env t ≠ none) :
    s.waitState addr env req
      = { results := setAll [] (refWrites addr env (schedule env req)),
          heap := (schedule env req).foldl (heapWrite addr env) (fun _ => zeroResponse),
          err := none, panicked := false } := by
  rw [MultiModelService.waitState, foldl_runTask_writes s addr env _ _ h]

/-- The aggregate returned when every task stored a pointer, as read through the
pointers. -/
theorem executeTestAt_read (s : MultiModelService) (addr : Nat → Nat) (env : Env)
    (req : TestRequest)
    (h : ∀ t ∈ schedule env req,
      s.providers.get t.2.Provider ≠ none ∧ taskEntry env t ≠ none) :
    s.ExecuteTestAt addr env req = Outcome.returned
      (some { Results :=
                (setAll [] (refWrites addr env (schedule env req))).map
                  (fun e => (e.1, Ref.load ((schedule env req).foldl (heapWrite addr env)
                    (fun _ => zeroResponse)) e.2)),
              StartTime := env.startTime, EndTime := env.endTime,
              Duration := (env.endTime.Sub env.startTime).Milliseconds }) none := by
  simp [MultiModelService.ExecuteTestAt, waitState_of_writes s addr env req h,
    GroupState.read]

/-- The aggregate returned when every task stored a pointer and no two calls handed back
the same object: each key shows the object its last writer left. -/
theorem executeTestAt_of_writes (s : MultiModelService) (addr : Nat → Nat) (env : Env)
    (req : TestRequest)
    (h : ∀ t ∈ schedule env req,
      s.providers.get t.2.Provider ≠ none ∧ taskEntry env t ≠ none)
    (hshare : NoSharing addr env req) :
    s.ExecuteTestAt addr env req = Outcome.returned
      (some { Results := setAll [] (writes env (schedule env req)),
              StartTime := env.startTime, EndTime := env.endTime,
              Duration := (env.endTime.Sub env.startTime).Milliseconds }) none := by
  rw [executeTestAt_read s addr env req h, map_setAll, refWrites_load]
  · rfl
  · intro t ht r v hr hv
    apply load_taskRef addr env _ _ t r v ht hr hv
    intro u hu hou hot hadr
    have hu' := (mem_schedule env req u).mp hu
    have ht' := (mem_schedule env req t).mp ht
    have hidx : u.1 = t.1 := hshare u.1 t.1 u.2 t.2 hu' ht' hou hot hadr
    rw [hidx, ht'] at hu'
    exact Prod.ext hidx (Option.some.inj hu').symm

/-- The aggregate returned when every task stored an entry. -/
theorem executeTest_of_writes (s : MultiModelService) (env : Env) (req : TestRequest)
    (h : ∀ t ∈ schedule env req,
      s.providers.get t.2.Provider ≠ none ∧ taskEntry env t ≠ none) :
    s.ExecuteTest env req = Outcome.returned
      (some { Results := setAll [] (writes env (schedule env req)),
              StartTime := env.startTime, EndTime := env.endTime,
              Duration := (env.endTime.Sub env.startTime).Milliseconds }) none :=
  executeTestAt_of_writes s (fun i => i) env req h (noSharing_self env req)

/-- A call that returns a nil error is one in which every task stored an entry. -/
theorem writes_of_executeTestAt (s : MultiModelService) (addr : Nat → Nat) (env : Env)
    (req : TestRequest) (res : Option TestResult)
    (h : s.ExecuteTestAt addr env req = Outcome.returned res none) :
    ∀ t ∈ schedule env req,
      s.providers.get t.2.Provider ≠ none ∧ taskEntry env t ≠ none := by
  have hpan := foldl_runTask_panicked s addr env (schedule env req)
    { results := [], heap := fun _ => zeroResponse, err := none, panicked := false }
  have herr := foldl_runTask_err_none s addr env (schedule env req)
    { results := [], heap := fun _ => zeroResponse, err := none, panicked := false } rfl
  simp only [MultiModelService.ExecuteTestAt, MultiModelService.waitState] at h
  split at h
  · cases h
  · rename_i hnp
    split at h
    · cases h
    · rename_i hnone
      rcases herr with ⟨_, hall⟩ | ⟨t, _, _, ht⟩
      · intro t ht
        refine ⟨hall t ht, fun he => hnp ?_⟩
        exact hpan.mpr (Or.inr ⟨t, ht, hall t ht, he⟩)
      · rw [hnone] at ht
        cases ht

/-- A call that returns a nil error is one in which every task stored an entry. -/
theorem writes_of_executeTest (s : MultiModelService) (env : Env) (req : TestRequest)
    (res : Option TestResult) (h : s.ExecuteTest env req = Outcome.returned res none) :
    ∀ t ∈ schedule env req,
      s.providers.get t.2.Provider ≠ none ∧ taskEntry env t ≠ none :=
  writes_of_executeTestAt s (fun i => i) env req res h

/-- The error kept by the errgroup and the crash flag do not depend on which objects the
calls hand back. -/
theorem foldl_runTask_flags (s : MultiModelService) (addr addr' : Nat → Nat) (env : Env)
    (order : List (Nat × ModelReq)) (st st' : GroupState)
    (he : st.err = st'.err) (hp : st.panicked = st'.panicked) :
    (order.foldl (runTask s addr env) st).err = (order.foldl (runTask s addr' env) st').err ∧
      (order.foldl (runTask s addr env) st).panicked
        = (order.foldl (runTask s addr' env) st').panicked := by
  induction order generalizing st st' with
  | nil => exact ⟨he, hp⟩
  | cons t order ih =>
    rw [List.foldl_cons, List.foldl_cons]
    apply ih
    · by_cases hreg : s.providers.get t.2.Provider = none
      · rw [runTask_missing s addr env st t hreg, runTask_missing s addr' env st' t hreg]
        simp [he]
      · rw [runTask_err_of_registered s addr env st t hreg,
          runTask_err_of_registered s addr' env st' t hreg]
        exact he
    · by_cases hreg : s.providers.get t.2.Provider = none
      · rw [runTask_missing s addr env st t hreg, runTask_missing s addr' env st' t hreg]
        exact hp
      · cases hent : taskEntry env t with
        | none =>
          rw [runTask_crash s addr env st t hreg hent, runTask_crash s addr' env st' t hreg hent]
        | some e =>
          obtain ⟨r, hr⟩ := taskRef_of_entry addr env t (by simp [hent])
          obtain ⟨r', hr'⟩ := taskRef_of_entry addr' env t (by simp [hent])
          rw [runTask_write s addr env st t r hreg hr,
            runTask_write s addr' env st' t r' hreg hr']
          exact hp

/-- Whether a run crashes, returns an error (and which), or returns a result is the same
whichever objects the calls hand back. -/
theorem executeTestAt_shape (s : MultiModelService) (addr : Nat → Nat) (env : Env)
    (req : TestRequest) :
    (s.ExecuteTestAt addr env req = Outcome.panicked ↔
        s.ExecuteTest env req = Outcome.panicked) ∧
      (∀ e, s.ExecuteTestAt addr env req = Outcome.returned none (some e) ↔
        s.ExecuteTest env req = Outcome.returned none (some e)) ∧
      ((∃ r, s.ExecuteTestAt addr env req = Outcome.returned (some r) none) ↔
        ∃ r, s.ExecuteTest env req = Outcome.returned (some r) none) := by
  obtain ⟨herr, hpan⟩ := foldl_runTask_flags s addr (fun i => i) env (schedule env req)
    { results := [], heap := fun _ => zeroResponse, err := none, panicked := false }
    { results := [], heap := fun _ => zeroResponse, err := none, panicked := false } rfl rfl
  simp only [MultiModelService.ExecuteTest, MultiModelService.ExecuteTestAt,
    MultiModelService.waitState]
  rw [herr, hpan]
  split
  · simp
  · split <;> simp

/-! ## Lemmas: what the tasks store -/

theorem writes_map_fst (env : Env) (order : List (Nat × ModelReq))
    (h : ∀ t ∈ order, taskEntry env t ≠ none) :
    (writes env order).map Prod.fst = order.map (fun t => t.2.Name) := by
  induction order with
  | nil => rfl
  | cons t order ih =>
    obtain ⟨e, he⟩ := Option.ne_none_iff_exists'.mp (h t (List.mem_cons_self _ _))
    rw [writes_cons env t order e he, List.map_cons, List.map_cons,
      ih (fun t' ht' => h t' (List.mem_cons_of_mem _ ht'))]

theorem mem_writes (env : Env) (order : List (Nat × ModelReq)) (p : String × ModelResponse) :
    p ∈ writes env order ↔ ∃ t ∈ order, taskEntry env t = some p.2 ∧ t.2.Name = p.1 := by
  simp only [writes, List.mem_filterMap, Option.map_eq_some']
  constructor
  · rintro ⟨t, ht, e, he, rfl⟩
    exact ⟨t, ht, he, rfl⟩
  · rintro ⟨t, ht, he, hn⟩
    exact ⟨t, ht, p.2, he, by rw [hn]⟩

theorem taskEntry_modelName (env : Env) (t : Nat × ModelReq) (v : ModelResponse)
    (h : taskEntry env t = some v) : v.ModelName = t.2.Name := by
  unfold taskEntry at h
  cases herr : (env.calls t.1).err with
  | some e =>
    simp only [herr, Option.some.injEq] at h
    rw [← h]
    rfl
  | none =>
    simp only [herr, Option.map_eq_some'] at h
    obtain ⟨r, _, rfl⟩ := h
    rfl

theorem writes_keys_nodup (s : MultiModelService) (env : Env) (req : TestRequest)
    (hnd : (req.Models.map (fun m => m.Name)).Nodup)
    (h : ∀ t ∈ schedule env req,
      s.providers.get t.2.Provider ≠ none ∧ taskEntry env t ≠ none) :
    ((writes env (schedule env req)).map Prod.fst).Nodup := by
  rw [writes_map_fst env _ (fun t ht => (h t ht).2)]
  exact (schedule_names_perm env req).nodup_iff.mpr hnd

/-- With distinct names, the entry under a model's name is the one its own task stored. -/
theorem get_results_of_distinct (s : MultiModelService) (env : Env) (req : TestRequest)
    (hnd : (req.Models.map (fun m => m.Name)).Nodup)
    (h : ∀ t ∈ schedule env req,
      s.providers.get t.2.Provider ≠ none ∧ taskEntry env t ≠ none)
    (i : Nat) (m : ModelReq) (hm : req.Models[i]? = some m) :
    GoMap.get (setAll [] (writes env (schedule env req))) m.Name = taskEntry env (i, m) := by
  have ht : (i, m) ∈ schedule env req := (mem_schedule env req (i, m)).mpr hm
  obtain ⟨e, he⟩ := Option.ne_none_iff_exists'.mp (h _ ht).2
  rw [he]
  apply get_setAll_of_nodup _ _ _ _ (writes_keys_nodup s env req hnd h)
  exact (mem_writes env _ (m.Name, e)).mpr ⟨(i, m), ht, he, rfl⟩

theorem callsReturn_update (s : MultiModelService) (env : Env) (req : TestRequest)
    (hcalls : CallsReturn s env req) (i : Nat) (o : CallOutcome) (picks : List Nat)
    (ho : o.resp ≠ none ∨ o.err ≠ none) :
    CallsReturn s { env with calls := Function.update env.calls i o, picks := picks } req := by
  intro j m hj hp
  by_cases hji : j = i
  · subst hji
    simpa using ho
  · simpa [Function.update_noteq hji] using hcalls j m hj hp

theorem taskEntry_update_ne (env : Env) (i j : Nat) (m : ModelReq) (o : CallOutcome)
    (picks : List Nat) (hji : j ≠ i) :
    taskEntry { env with calls := Function.update env.calls i o, picks := picks } (j, m)
      = taskEntry env (j, m) := by
  simp [taskEntry, failureEntry, Function.update_noteq hji]

theorem demo_registered :
    ∀ m ∈ demo.req.Models, demo.svc.providers.get m.Provider ≠ none := by
  decide

theorem demo_callsReturn (r : TestRequest) : CallsReturn demo.svc demo.env r := by
  intro i m _ _
  by_cases hi : i = 0
  · left
    simp [demo.env, hi]
  · right
    simp [demo.env, hi]

theorem demo_distinct : (demo.req.Models.map (fun m => m.Name)).Nodup := by
  decide

/-! ## The orchestrator's contract -/

/-- C1: when every requested provider key is registered, `ExecuteTest` returns a nil error
and a non-nil result, whatever each provider call returns (a response or an error) and in
whatever order the tasks take effect; this holds for the empty model list as well. -/
theorem executeTest_returns_result (s : MultiModelService) (env : Env) (req : TestRequest)
    (hreg : ∀ m ∈ req.Models, s.providers.get m.Provider ≠ none)
    (hcalls : CallsReturn s env req) :
    ∃ r, s.ExecuteTest env req = Outcome.returned (some r) none :=
  ⟨_, executeTest_of_writes s env req (all_write s env req hreg hcalls)⟩

/-- C1 at the worked request: one call succeeds, the other fails, the result is there. -/
theorem executeTest_returns_result_witness :
    ∃ r, demo.svc.ExecuteTest demo.env demo.req = Outcome.returned (some r) none :=
  executeTest_returns_result demo.svc demo.env demo.req demo_registered
    (demo_callsReturn demo.req)

/-- C2: when some requested provider key is not registered, `ExecuteTest` returns a nil
result and the error "provider k not found or not enabled" for a requested key `k` that
is absent from the registry, whatever the calls made for the other models return. -/
theorem executeTest_provider_not_found (s : MultiModelService) (env : Env)
    (req : TestRequest)
    (hmiss : ∃ m ∈ req.Models, s.providers.get m.Provider = none)
    (hcalls : CallsReturn s env req) :
    ∃ m ∈ req.Models, s.providers.get m.Provider = none ∧
      s.ExecuteTest env req = Outcome.returned none
        (some ("provider " ++ m.Provider ++ " not found or not enabled")) := by
  have hpan := foldl_runTask_panicked s (fun i => i) env (schedule env req)
    { results := [], heap := fun _ => zeroResponse, err := none, panicked := false }
  have hnp : ¬ ((schedule env req).foldl (runTask s (fun i => i) env)
      { results := [], heap := fun _ => zeroResponse, err := none,
        panicked := false }).panicked = true := by
    rw [hpan]
    rintro (h | ⟨t, ht, hp, he⟩)
    · cases h
    · rw [mem_schedule] at ht
      exact taskEntry_ne_none env t (hcalls t.1 t.2 ht hp) he
  rcases foldl_runTask_err_none s (fun i => i) env (schedule env req)
    { results := [], heap := fun _ => zeroResponse, err := none, panicked := false } rfl
    with ⟨_, hall⟩ | ⟨t, ht, hp, herr⟩
  · obtain ⟨m, hm, hp⟩ := hmiss
    obtain ⟨i, hi⟩ := List.mem_iff_getElem?.mp hm
    exact absurd hp (hall (i, m) ((mem_schedule env req (i, m)).mpr hi))
  · refine ⟨t.2, List.getElem?_mem ((mem_schedule env req t).mp ht), hp, ?_⟩
    simp only [MultiModelService.ExecuteTest, MultiModelService.ExecuteTestAt,
      MultiModelService.waitState]
    rw [if_neg hnp, herr]
    rfl

/-- C2 at the worked request extended by a model on the unregistered key "anthropic". -/
theorem executeTest_provider_not_found_witness :
    ∃ m ∈ demo.reqMissing.Models, demo.svc.providers.get m.Provider = none ∧
      demo.svc.ExecuteTest demo.env demo.reqMissing = Outcome.returned none
        (some ("provider " ++ m.Provider ++ " not found or not enabled")) :=
  executeTest_provider_not_found demo.svc demo.env demo.reqMissing
    ⟨{ Name := "claude", Provider := "anthropic", Config := [] }, by decide, by decide⟩
    (demo_callsReturn demo.reqMissing)

/-- C3: with pairwise distinct model names and all providers registered, a model whose
call returns the error `e` gets, under its name, an entry with `Success = false`,
`Error = e`, empty `Content`, and its own name and provider key; every other model still
has its entry, and that entry is the same as in any run where the failing call returns
something else (and the tasks interleave differently). -/
theorem executeTest_failure_entry (s : MultiModelService) (env : Env) (req : TestRequest)
    (hnd : (req.Models.map (fun m => m.Name)).Nodup)
    (hreg : ∀ m ∈ req.Models, s.providers.get m.Provider ≠ none)
    (hcalls : CallsReturn s env req)
    (i : Nat) (m : ModelReq) (e : String)
    (hm : req.Models[i]? = some m) (he : (env.calls i).err = some e) :
    ∃ r, s.ExecuteTest env req = Outcome.returned (some r) none ∧
      (∃ v, r.Results.get m.Name = some v ∧ v.Success = false ∧ v.Error = e ∧
        v.Content = "" ∧ v.ModelName = m.Name ∧ v.Provider = m.Provider) ∧
      ∀ j m', req.Models[j]? = some m' → j ≠ i →
        r.Results.get m'.Name ≠ none ∧
        ∀ (o : CallOutcome) (picks : List Nat), (o.resp ≠ none ∨ o.err ≠ none) →
          ∃ r', s.ExecuteTest
              { env with calls := Function.update env.calls i o, picks := picks } req
                = Outcome.returned (some r') none ∧
            r'.Results.get m'.Name = r.Results.get m'.Name := by
  have hw := all_write s env req hreg hcalls
  refine ⟨_, executeTest_of_writes s env req hw, ?_, ?_⟩
  · refine ⟨failureEntry env i m e, ?_, rfl, rfl, rfl, rfl, rfl⟩
    show GoMap.get (setAll [] (writes env (schedule env req))) m.Name = _
    rw [get_results_of_distinct s env req hnd hw i m hm]
    simp [taskEntry, he]
  · intro j m' hj hji
    have hget := get_results_of_distinct s env req hnd hw j m' hj
    refine ⟨?_, ?_⟩
    · show GoMap.get (setAll [] (writes env (schedule env req))) m'.Name ≠ none
      rw [hget]
      exact (hw (j, m') ((mem_schedule env req (j, m')).mpr hj)).2
    · intro o picks ho
      have hcalls' := callsReturn_update s env req hcalls i o picks ho
      have hw' := all_write s _ req hreg hcalls'
      refine ⟨_, executeTest_of_writes s _ req hw', ?_⟩
      show GoMap.get (setAll [] (writes _ (schedule _ req))) m'.Name
        = GoMap.get (setAll [] (writes env (schedule env req))) m'.Name
      rw [hget, get_results_of_distinct s _ req hnd hw' j m' hj,
        taskEntry_update_ne env i j m' o picks hji]

/-- C3 at the worked request: the second model's call fails with "upstream error". -/
theorem executeTest_failure_entry_witness :
    ∃ r, demo.svc.ExecuteTest demo.env demo.req = Outcome.returned (some r) none ∧
      (∃ v, r.Results.get "gpt-4.1" = some v ∧ v.Success = false ∧
        v.Error = "upstream error" ∧ v.Content = "" ∧ v.ModelName = "gpt-4.1" ∧
        v.Provider = "openai") ∧
      ∀ j m', demo.req.Models[j]? = some m' → j ≠ 1 →
        r.Results.get m'.Name ≠ none ∧
        ∀ (o : CallOutcome) (picks : List Nat), (o.resp ≠ none ∨ o.err ≠ none) →
          ∃ r', demo.svc.ExecuteTest
              { demo.env with calls := Function.update demo.env.calls 1 o, picks := picks }
              demo.req = Outcome.returned (some r') none ∧
            r'.Results.get m'.Name = r.Results.get m'.Name :=
  executeTest_failure_entry demo.svc demo.env demo.req demo_distinct demo_registered
    (demo_callsReturn demo.req) 1 { Name := "gpt-4.1", Provider := "openai", Config := [] }
    "upstream error" (by decide) (by decide)

theorem refWrites_map_fst (addr : Nat → Nat) (env : Env) (order : List (Nat × ModelReq))
    (h : ∀ t ∈ order, taskEntry env t ≠ none) :
    (refWrites addr env order).map Prod.fst = order.map (fun t => t.2.Name) := by
  induction order with
  | nil => rfl
  | cons t order ih =>
    obtain ⟨r, hr⟩ := taskRef_of_entry addr env t (h t (List.mem_cons_self _ _))
    rw [refWrites_cons addr env t order r hr, List.map_cons, List.map_cons,
      ih (fun t' ht' => h t' (List.mem_cons_of_mem _ ht'))]

theorem mem_refWrites (addr : Nat → Nat) (env : Env) (order : List (Nat × ModelReq))
    (t : Nat × ModelReq) (r : Ref) (ht : t ∈ order) (hr : taskRef addr env t = some r) :
    (t.2.Name, r) ∈ refWrites addr env order := by
  simp only [refWrites, List.mem_filterMap, Option.map_eq_some']
  exact ⟨t, ht, r, hr, rfl⟩

theorem keys_map {V W : Type} (g : V → W) (m : GoMap V) :
    GoMap.keys (m.map (fun e => (e.1, g e.2))) = GoMap.keys m := by
  simp [GoMap.keys, List.map_map, Function.comp_def]

/-- C4 as stated fails: the names are distinct, both providers are registered and both
calls return `(resp, nil)`, but they hand back the same object; the task of "gpt-4.1"
writes its name into it last, and the entry under "glm-4" reads `ModelName = "gpt-4.1"`. -/
theorem shared_response_wrong_name :
    ∃ r v, demo.svc.ExecuteTestAt (fun _ => 7) demo.envAllOk demo.req
        = Outcome.returned (some r) none ∧
      demo.envAllOk.calls 0 = { resp := some demo.hello, err := none } ∧
      r.Results.get "glm-4" = some v ∧ v.ModelName = "gpt-4.1" ∧ v.ModelName ≠ "glm-4" :=
  ⟨{ Results := [("gpt-4.1", { demo.hello with ModelName := "gpt-4.1" }),
                 ("glm-4", { demo.hello with ModelName := "gpt-4.1" })],
     StartTime := 0, EndTime := 60000000, Duration := 60 },
   { demo.hello with ModelName := "gpt-4.1" },
   by decide, by decide, by decide, by decide, by decide⟩

/-- C4 amended: with pairwise distinct model names and all providers registered, a model
whose call returns `(resp, nil)` with a response object that no other call of the request
hands back gets, under its name, `resp` with `ModelName` set to the requested name and
every other field as the provider returned it. -/
theorem executeTestAt_success_entry (s : MultiModelService) (addr : Nat → Nat) (env : Env)
    (req : TestRequest)
    (hnd : (req.Models.map (fun m => m.Name)).Nodup)
    (hreg : ∀ m ∈ req.Models, s.providers.get m.Provider ≠ none)
    (hcalls : CallsReturn s env req)
    (i : Nat) (m : ModelReq) (resp : ModelResponse)
    (hm : req.Models[i]? = some m)
    (herr : (env.calls i).err = none) (hresp : (env.calls i).resp = some resp)
    (hown : ∀ j m', req.Models[j]? = some m' → j ≠ i → ReturnsObject env j →
      addr j ≠ addr i) :
    ∃ r, s.ExecuteTestAt addr env req = Outcome.returned (some r) none ∧
      ∃ v, r.Results.get m.Name = some v ∧ v.ModelName = m.Name ∧
        v.Provider = resp.Provider ∧ v.Content = resp.Content ∧ v.Error = resp.Error ∧
        v.Success = resp.Success ∧ v.TokensUsed = resp.TokensUsed ∧
        v.ResponseTime = resp.ResponseTime ∧ v.StartTime = resp.StartTime ∧
        v.EndTime = resp.EndTime := by
  have hw := all_write s env req hreg hcalls
  have ht : (i, m) ∈ schedule env req := (mem_schedule env req (i, m)).mpr hm
  have hr : taskRef addr env (i, m) = some (Ref.object (addr i)) := by
    simp [taskRef, herr, hresp]
  have hv : taskEntry env (i, m) = some { resp with ModelName := m.Name } := by
    simp [taskEntry, herr, hresp]
  refine ⟨_, executeTestAt_read s addr env req hw, { resp with ModelName := m.Name }, ?_,
    rfl, rfl, rfl, rfl, rfl, rfl, rfl, rfl, rfl⟩
  show GoMap.get (List.map _ (setAll [] (refWrites addr env (schedule env req)))) m.Name = _
  have hkeys : ((refWrites addr env (schedule env req)).map Prod.fst).Nodup := by
    rw [refWrites_map_fst addr env _ (fun t ht => (hw t ht).2)]
    exact (schedule_names_perm env req).nodup_iff.mpr hnd
  rw [get_map, get_setAll_of_nodup _ _ _ _ hkeys (mem_refWrites addr env _ (i, m) _ ht hr),
    Option.map_some']
  congr 1
  apply load_taskRef addr env _ _ (i, m) _ _ ht hr hv
  intro u hu hou _ hadr
  have hu' := (mem_schedule env req u).mp hu
  have hidx : u.1 = i := by
    by_contra hne
    exact hown u.1 u.2 hu' hne hou hadr
  rw [hidx, hm] at hu'
  exact Prod.ext hidx (Option.some.inj hu').symm

/-- C4 amended, at the worked request with every call handing back its own object. -/
theorem executeTestAt_success_entry_witness :
    ∃ r, demo.svc.ExecuteTestAt (fun i => i + 100) demo.env demo.req
        = Outcome.returned (some r) none ∧
      ∃ v, r.Results.get "glm-4" = some v ∧ v.ModelName = "glm-4" ∧
        v.Provider = "zhipu" ∧ v.Content = "hello" ∧ v.Error = "" ∧
        v.Success = true ∧ v.TokensUsed = 0 ∧
        v.ResponseTime = 50 ∧ v.StartTime = 1000000 ∧
        v.EndTime = 51000000 :=
  executeTestAt_success_entry demo.svc (fun i => i + 100) demo.env demo.req demo_distinct
    demo_registered (demo_callsReturn demo.req) 0
    { Name := "glm-4", Provider := "zhipu", Config := [] }
    demo.hello (by decide) (by decide) (by decide)
    (fun j _ _ hj _ h => hj (by simpa using h))

/-- C5 as stated fails: `ExecuteTest` returns a nil error, both calls handed back the same
object, the task of "glm-4" wrote its name into it last, and the entry stored under the
key "gpt-4.1" reads `ModelName = "glm-4"`. -/
theorem shared_response_key_mismatch :
    ∃ r v, demo.svc.ExecuteTestAt (fun _ => 7) demo.envAllOkRev demo.req
        = Outcome.returned (some r) none ∧
      ("gpt-4.1", v) ∈ r.Results ∧ v.ModelName = "glm-4" ∧ v.ModelName ≠ "gpt-4.1" :=
  ⟨{ Results := [("glm-4", demo.hello), ("gpt-4.1", demo.hello)],
     StartTime := 0, EndTime := 60000000, Duration := 60 },
   demo.hello, by decide, by decide, by decide, by decide⟩

/-- C5 amended: whenever `ExecuteTest` returns a nil error, the result is non-nil, the
keys of `Results` are exactly the requested model names, without repetition (so there are
as many entries as distinct names); and when no two calls of the request handed back the
same response object, every entry carries the key it is stored under as its
`ModelName`. -/
theorem executeTestAt_keys (s : MultiModelService) (addr : Nat → Nat) (env : Env)
    (req : TestRequest) (res : Option TestResult)
    (h : s.ExecuteTestAt addr env req = Outcome.returned res none) :
    ∃ r, res = some r ∧
      (∀ k, k ∈ r.Results.keys ↔ k ∈ req.Models.map (fun m => m.Name)) ∧
      r.Results.keys.Nodup ∧
      r.Results.length = (req.Models.map (fun m => m.Name)).dedup.length ∧
      (NoSharing addr env req → ∀ k v, (k, v) ∈ r.Results → v.ModelName = k) := by
  have hw := writes_of_executeTestAt s addr env req res h
  have hread := executeTestAt_read s addr env req hw
  rw [hread] at h
  injection h with hres _
  have hkeys : ∀ k, k ∈ GoMap.keys (List.map
      (fun e => (e.1, Ref.load ((schedule env req).foldl (heapWrite addr env)
        (fun _ => zeroResponse)) e.2))
      (setAll [] (refWrites addr env (schedule env req)))) ↔
      k ∈ req.Models.map (fun m => m.Name) := by
    intro k
    rw [keys_map, mem_keys_setAll, refWrites_map_fst addr env _ (fun t ht => (hw t ht).2),
      (schedule_names_perm env req).mem_iff]
    simp [GoMap.keys]
  have hnd : (GoMap.keys (List.map
      (fun e => (e.1, Ref.load ((schedule env req).foldl (heapWrite addr env)
        (fun _ => zeroResponse)) e.2))
      (setAll [] (refWrites addr env (schedule env req))))).Nodup := by
    rw [keys_map]
    exact nodup_keys_setAll _ [] List.nodup_nil
  refine ⟨_, hres.symm, hkeys, hnd, ?_, ?_⟩
  · have hperm := (List.perm_ext_iff_of_nodup hnd (List.nodup_dedup _)).mpr
      (fun k => by rw [hkeys, List.mem_dedup])
    have hlen := hperm.length_eq
    simpa [GoMap.keys] using hlen
  · intro hshare k v hkv
    have heq := hread.symm.trans (executeTestAt_of_writes s addr env req hw hshare)
    injection heq with heq _
    injection heq with heq
    injection heq with heq
    have hkv' : (k, v) ∈ setAll [] (writes env (schedule env req)) := by
      rw [← heq]
      exact hkv
    rcases mem_setAll _ _ _ hkv' with hkv' | hkv'
    · obtain ⟨t, _, he, hn⟩ := (mem_writes env _ (k, v)).mp hkv'
      rw [taskEntry_modelName env t v he]
      exact hn
    · cases hkv'

/-- C5 amended, at the worked request with every call handing back its own object: two
distinct names, two entries, each named as its key. -/
theorem executeTestAt_keys_witness :
    ∃ r, some demo.result = some r ∧
      (∀ k, k ∈ r.Results.keys ↔ k ∈ demo.req.Models.map (fun m => m.Name)) ∧
      r.Results.keys.Nodup ∧
      r.Results.length = (demo.req.Models.map (fun m => m.Name)).dedup.length ∧
      ∀ k v, (k, v) ∈ r.Results → v.ModelName = k :=
  let ⟨r, h1, h2, h3, h4, h5⟩ :=
    executeTestAt_keys demo.svc (fun i => i + 100) demo.env demo.req (some demo.result)
      (by decide)
  ⟨r, h1, h2, h3, h4, h5 (fun _ _ _ _ _ _ _ _ h => Nat.add_right_cancel h)⟩

/-! ## Counting and timing -/

theorem countSuccessful_foldl (l : GoMap ModelResponse) (acc : Int) :
    l.foldl (fun count e => if e.2.Success then count + 1 else count) acc
      = acc + ((l.filter (fun e => e.2.Success)).length : Int) := by
  induction l generalizing acc with
  | nil => simp
  | cons e l ih =>
    rw [List.foldl_cons, ih]
    by_cases he : e.2.Success = true
    · simp [he]
      omega
    · simp [he]

theorem countSuccessful_eq (l : GoMap ModelResponse) :
    countSuccessful l = ((l.filter (fun e => e.2.Success)).length : Int) := by
  rw [countSuccessful, countSuccessful_foldl]
  simp

theorem taskEntry_success (env : Env) (t : Nat × ModelReq) (v : ModelResponse)
    (h : taskEntry env t = some v) : v.Success = callSucceeded env t := by
  unfold taskEntry at h
  unfold callSucceeded
  cases herr : (env.calls t.1).err with
  | some e =>
    simp only [herr, Option.some.injEq] at h
    rw [← h]
    rfl
  | none =>
    simp only [herr, Option.map_eq_some'] at h
    obtain ⟨r, hr, rfl⟩ := h
    simp [hr]

theorem writes_success_length (env : Env) (order : List (Nat × ModelReq))
    (h : ∀ t ∈ order, taskEntry env t ≠ none) :
    ((writes env order).filter (fun e => e.2.Success)).length
      = (order.filter (callSucceeded env)).length := by
  induction order with
  | nil => rfl
  | cons t order ih =>
    obtain ⟨e, he⟩ := Option.ne_none_iff_exists'.mp (h t (List.mem_cons_self _ _))
    have ih' := ih (fun t' ht' => h t' (List.mem_cons_of_mem _ ht'))
    rw [writes_cons env t order e he]
    simp only [List.filter_cons, taskEntry_success env t e he]
    cases callSucceeded env t <;> simp [ih']

theorem tdiv_mono (a b c : Int) (hc : 0 < c) (hab : a ≤ b) : a.tdiv c ≤ b.tdiv c := by
  rcases le_or_lt 0 a with ha | ha
  · rw [Int.tdiv_eq_ediv ha hc.le, Int.tdiv_eq_ediv (ha.trans hab) hc.le]
    exact Int.ediv_le_ediv hc hab
  · have hna : a.tdiv c ≤ 0 := by
      have h := Int.tdiv_nonneg (show (0 : Int) ≤ -a by omega) hc.le
      rw [Int.neg_tdiv] at h
      omega
    rcases le_or_lt 0 b with hb | hb
    · exact hna.trans (Int.tdiv_nonneg hb hc.le)
    · have h1 : (-b) / c ≤ (-a) / c := Int.ediv_le_ediv hc (by omega)
      rw [← Int.tdiv_eq_ediv (by omega) hc.le, ← Int.tdiv_eq_ediv (by omega) hc.le,
        Int.neg_tdiv, Int.neg_tdiv] at h1
      omega

/-- C6 as stated fails: two requested models share the name "m" and both calls succeed,
so two calls returned `Success = true` while the aggregate holds one entry and
`countSuccessful` is 1. -/
theorem countSuccessful_duplicate_names :
    ∃ r, demo.svc.ExecuteTest demo.envAllOk demo.reqDup = Outcome.returned (some r) none ∧
      countSuccessful r.Results = 1 ∧ successfulCalls demo.envAllOk demo.reqDup = 2 ∧
      countSuccessful r.Results ≠ successfulCalls demo.envAllOk demo.reqDup :=
  ⟨{ Results := [("m", { demo.hello with ModelName := "m" })],
     StartTime := 0, EndTime := 60000000, Duration := 60 },
   by decide, by decide, by decide, by decide⟩

/-- C6 amended: when the requested model names are pairwise distinct and `ExecuteTest`
returns a nil error, `countSuccessful` of the returned `Results` equals the number of
requested models whose call returned a nil error and a response with `Success = true`. -/
theorem countSuccessful_distinct_names (s : MultiModelService) (env : Env)
    (req : TestRequest) (r : TestResult)
    (hnd : (req.Models.map (fun m => m.Name)).Nodup)
    (h : s.ExecuteTest env req = Outcome.returned (some r) none) :
    countSuccessful r.Results = successfulCalls env req := by
  have hw := writes_of_executeTest s env req (some r) h
  rw [executeTest_of_writes s env req hw] at h
  injection h with hres _
  injection hres with hres
  subst hres
  have hents := fun t ht => (hw t ht).2
  show countSuccessful (setAll [] (writes env (schedule env req))) = _
  rw [setAll_of_fresh _ [] (writes_keys_nodup s env req hnd hw) (by simp [GoMap.keys]),
    List.append_nil, countSuccessful_eq, List.filter_reverse, List.length_reverse,
    writes_success_length env _ hents, successfulCalls,
    ((schedule_perm env req).filter (callSucceeded env)).length_eq]

/-- C6 amended, at the worked request: one successful call, one entry counted. -/
theorem countSuccessful_distinct_names_witness :
    countSuccessful demo.result.Results = successfulCalls demo.env demo.req :=
  countSuccessful_distinct_names demo.svc demo.env demo.req demo.result demo_distinct
    (by decide)

/-- C7 as stated fails: the provider's response is stored as returned, so a response that
reports 5000 ms inside a run of 60 ms gives an entry whose `ResponseTime` exceeds
`Duration`. -/
theorem duration_below_reported_time :
    ∃ r v, demo.svc.ExecuteTest demo.envSlow demo.reqOne = Outcome.returned (some r) none ∧
      r.Results.get "glm-4" = some v ∧ r.Duration = 60 ∧ v.ResponseTime = 5000 ∧
      ¬ (v.ResponseTime ≤ r.Duration) :=
  ⟨{ Results := [("glm-4", { demo.hello with ResponseTime := 5000 })],
     StartTime := 0, EndTime := 60000000, Duration := 60 },
   { demo.hello with ResponseTime := 5000 },
   by decide, by decide, by decide, by decide, by decide⟩

/-- C7 amended: `Duration` is at least the `ResponseTime` of every entry of `Results`
when the clock did not run backwards over the call and every response returned with a nil
error was measured inside the call: its `StartTime` is not before the call's start, its
`EndTime` not after the call's end, and its `ResponseTime` is `EndTime - StartTime` in
whole milliseconds. -/
theorem duration_ge_responseTime (s : MultiModelService) (env : Env) (req : TestRequest)
    (r : TestResult)
    (hclock : env.startTime ≤ env.endTime)
    (hmeasured : ∀ i m resp, req.Models[i]? = some m → (env.calls i).err = none →
      (env.calls i).resp = some resp →
        env.startTime ≤ resp.StartTime ∧ resp.EndTime ≤ env.endTime ∧
          resp.ResponseTime = (resp.EndTime.Sub resp.StartTime).Milliseconds)
    (h : s.ExecuteTest env req = Outcome.returned (some r) none) :
    ∀ k v, (k, v) ∈ r.Results → v.ResponseTime ≤ r.Duration := by
  have hw := writes_of_executeTest s env req (some r) h
  rw [executeTest_of_writes s env req hw] at h
  injection h with hres _
  injection hres with hres
  subst hres
  intro k v hkv
  show v.ResponseTime ≤ (env.endTime.Sub env.startTime).Milliseconds
  rcases mem_setAll _ _ _ hkv with hkv | hkv
  · obtain ⟨t, ht, he, _⟩ := (mem_writes env _ (k, v)).mp hkv
    rw [mem_schedule] at ht
    unfold taskEntry at he
    cases herr : (env.calls t.1).err with
    | some e =>
      simp only [herr, Option.some.injEq] at he
      rw [← he]
      exact Int.tdiv_nonneg (Int.sub_nonneg_of_le hclock) (by decide)
    | none =>
      simp only [herr, Option.map_eq_some'] at he
      obtain ⟨resp, hresp, rfl⟩ := he
      obtain ⟨h1, h2, h3⟩ := hmeasured t.1 t.2 resp ht herr hresp
      show resp.ResponseTime ≤ _
      rw [h3]
      exact tdiv_mono _ _ _ (by decide) (Int.sub_le_sub h2 h1)
  · cases hkv

/-- C7 amended, at the worked request: the entry measured at 50 ms inside a run of 60 ms. -/
theorem duration_ge_responseTime_witness :
    ("glm-4", demo.hello) ∈ demo.result.Results ∧
      demo.hello.ResponseTime ≤ demo.result.Duration :=
  ⟨by decide,
   duration_ge_responseTime demo.svc demo.env demo.req demo.result (by decide)
    (by
      intro i m resp _ herr hresp
      by_cases hi : i = 0
      · have : resp = demo.hello := by simpa [demo.env, hi] using hresp.symm
        subst this
        decide
      · simp [demo.env, hi] at herr)
    (by decide) "glm-4" demo.hello (by decide)⟩

/-! ## The registry -/

theorem initOne_config (s : MultiModelService) (key : String)
    (mk : base.ProviderConfig → base.ModelProvider) : (s.initOne key mk).config = s.config := by
  unfold MultiModelService.initOne
  split
  · split <;> rfl
  · rfl

theorem initOne_get_self (s : MultiModelService) (key : String)
    (mk : base.ProviderConfig → base.ModelProvider) (mc : config.ModelConfig)
    (hcfg : s.config.Models.get key = some mc) (hen : mc.Enabled = true) :
    (s.initOne key mk).providers.get key = some (mk (providerConfig mc)) := by
  simp [MultiModelService.initOne, hcfg, hen, GoMap.get_set_self]

/-- C8 as stated fails: zhipu is enabled without an API key, its `ValidateConfig` reports
the missing key, and the registry built by `NewMultiModelService` still holds it. -/
theorem zhipu_without_key_registered :
    (zhipu.NewProvider { ApiKey := "", BaseURL := "https://zhipu.test", Timeout := 30
      }).ValidateConfig [] = some "zhipu API key is required" ∧
    (NewMultiModelService demo.cfgNoKey).providers.get "zhipu"
      = some (base.ModelProvider.zhipu (zhipu.NewProvider
          { ApiKey := "", BaseURL := "https://zhipu.test", Timeout := 30 })) ∧
    (NewMultiModelService demo.cfgNoKey).providers.get "zhipu" ≠ none := by
  decide

/-- C8 amended: a zhipu backend that is enabled in the configuration is registered by
`NewMultiModelService` even when its `ValidateConfig` fails for an empty API key
(the constructor never consults `ValidateConfig`), so a later lookup of "zhipu" finds
it. -/
theorem zhipu_registered_unvalidated (cfg : config.Config) (mc : config.ModelConfig)
    (hcfg : cfg.Models.get "zhipu" = some mc) (hen : mc.Enabled = true)
    (hkey : mc.ApiKey = "") :
    (∀ c, (zhipu.NewProvider (providerConfig mc)).ValidateConfig c
      = some "zhipu API key is required") ∧
    (NewMultiModelService cfg).providers.get "zhipu"
      = some (base.ModelProvider.zhipu (zhipu.NewProvider (providerConfig mc))) := by
  refine ⟨fun c => by simp [zhipu.Provider.ValidateConfig, zhipu.NewProvider,
    providerConfig, hkey], ?_⟩
  unfold NewMultiModelService MultiModelService.initProviders
  apply initOne_get_self _ _ _ mc _ hen
  simp only [initOne_config]
  exact hcfg

/-- C8 amended, at the configuration that enables zhipu without a key. -/
theorem zhipu_registered_unvalidated_witness :
    (∀ c, (zhipu.NewProvider (providerConfig
        { ApiKey := "", BaseURL := "https://zhipu.test", Timeout := 30000000000,
          Enabled := true })).ValidateConfig c = some "zhipu API key is required") ∧
    (NewMultiModelService demo.cfgNoKey).providers.get "zhipu"
      = some (base.ModelProvider.zhipu (zhipu.NewProvider (providerConfig
          { ApiKey := "", BaseURL := "https://zhipu.test", Timeout := 30000000000,
            Enabled := true }))) :=
  zhipu_registered_unvalidated demo.cfgNoKey
    { ApiKey := "", BaseURL := "https://zhipu.test", Timeout := 30000000000, Enabled := true }
    (by decide) (by decide) (by decide)

/-! ## Cancellation -/

/-- C9 as stated fails: the only provider is registered and its call returns the
cancellation error; `ExecuteTest` returns a nil error and an aggregate with one entry,
the failure entry of that model. -/
theorem cancelled_call_leaves_entry :
    ∃ r, demo.svc.ExecuteTest demo.envCancelled demo.reqOne
        = Outcome.returned (some r) none ∧
      r.Results =
        [("glm-4", { ModelName := "glm-4", Provider := "zhipu", Content := "",
                     Error := "context canceled", Success := false, TokensUsed := 0,
                     ResponseTime := 0, StartTime := 20000000, EndTime := 20000000 })] ∧
      r.Results ≠ [] :=
  ⟨{ Results :=
       [("glm-4", { ModelName := "glm-4", Provider := "zhipu", Content := "",
                    Error := "context canceled", Success := false, TokensUsed := 0,
                    ResponseTime := 0, StartTime := 20000000, EndTime := 20000000 })],
     StartTime := 0, EndTime := 60000000, Duration := 60 },
   by decide, by decide, by decide⟩

/-- C9 amended: when all providers are registered and every call returns an error (as
under a context that is already cancelled), `ExecuteTest` returns a nil error and an
aggregate whose keys are the requested model names and whose entries are all failure
entries carrying the error of one of the calls; it has no entries only for an empty model
list. -/
theorem executeTest_all_calls_fail (s : MultiModelService) (env : Env) (req : TestRequest)
    (hreg : ∀ m ∈ req.Models, s.providers.get m.Provider ≠ none)
    (hcancel : ∀ i m, req.Models[i]? = some m → (env.calls i).err ≠ none) :
    ∃ r, s.ExecuteTest env req = Outcome.returned (some r) none ∧
      (∀ k, k ∈ r.Results.keys ↔ k ∈ req.Models.map (fun m => m.Name)) ∧
      (∀ k v, (k, v) ∈ r.Results → v.Success = false ∧ v.Content = "" ∧
        ∃ i, (env.calls i).err = some v.Error) ∧
      (r.Results = [] ↔ req.Models = []) := by
  have hw := all_write s env req hreg (fun i m hm _ => Or.inr (hcancel i m hm))
  have hkeys : ∀ k, k ∈ GoMap.keys (setAll [] (writes env (schedule env req))) ↔
      k ∈ req.Models.map (fun m => m.Name) := by
    intro k
    rw [mem_keys_setAll, writes_map_fst env _ (fun t ht => (hw t ht).2),
      (schedule_names_perm env req).mem_iff]
    simp [GoMap.keys]
  refine ⟨_, executeTest_of_writes s env req hw, hkeys, ?_, ?_⟩
  · intro k v hkv
    rcases mem_setAll _ _ _ hkv with hkv | hkv
    · obtain ⟨t, ht, he, _⟩ := (mem_writes env _ (k, v)).mp hkv
      rw [mem_schedule] at ht
      obtain ⟨e, herr⟩ := Option.ne_none_iff_exists'.mp (hcancel t.1 t.2 ht)
      simp only [taskEntry, herr, Option.some.injEq] at he
      subst he
      exact ⟨rfl, rfl, t.1, herr⟩
    · cases hkv
  · show setAll [] (writes env (schedule env req)) = [] ↔ _
    constructor
    · intro h
      have h1 : req.Models.map (fun m => m.Name) = [] := by
        apply List.eq_nil_iff_forall_not_mem.mpr
        intro k hk
        have := (hkeys k).mpr hk
        rw [h] at this
        cases this
      exact List.map_eq_nil_iff.mp h1
    · intro h
      have h1 : GoMap.keys (setAll [] (writes env (schedule env req))) = [] := by
        apply List.eq_nil_iff_forall_not_mem.mpr
        intro k hk
        have := (hkeys k).mp hk
        rw [h] at this
        cases this
      exact List.map_eq_nil_iff.mp h1

/-- C9 amended, at the worked request under a cancelled context. -/
theorem executeTest_all_calls_fail_witness :
    ∃ r, demo.svc.ExecuteTest demo.envCancelled demo.req = Outcome.returned (some r) none ∧
      (∀ k, k ∈ r.Results.keys ↔ k ∈ demo.req.Models.map (fun m => m.Name)) ∧
      (∀ k v, (k, v) ∈ r.Results → v.Success = false ∧ v.Content = "" ∧
        ∃ i, (demo.envCancelled.calls i).err = some v.Error) ∧
      (r.Results = [] ↔ demo.req.Models = []) :=
  executeTest_all_calls_fail demo.svc demo.envCancelled demo.req demo_registered
    (fun _ _ _ => by simp [demo.envCancelled])

end service

/-! ## The HTTP handler -/

namespace handler

open model service

/-- C10: for a request that binds, the handler answers HTTP 400 with an error envelope of
code 400 and does not call the service when the user prompt is empty or the model list is
empty; otherwise it calls the service's `ExecuteTest` exactly once, and answers code 200
with the result when that returns a nil error, code 500 with the error's message when it
returns an error. -/
theorem handler_executeTest (h : TestHandler) (env : Env) (req : TestRequest) :
    ((req.Prompts.User = "" ∨ req.Models = []) →
      (h.ExecuteTest env (some req)).serviceCalls = [] ∧
      ∃ body, (h.ExecuteTest env (some req)).response = some (400, body) ∧
        body.Code = 400 ∧ body.Data = none) ∧
    (req.Prompts.User ≠ "" → req.Models ≠ [] →
      (h.ExecuteTest env (some req)).serviceCalls = [req] ∧
      (∀ res, h.service.ExecuteTest env req = Outcome.returned res none →
        (h.ExecuteTest env (some req)).response
          = some (200, { Code := 200, Message := "success", Data := res })) ∧
      (∀ res e, h.service.ExecuteTest env req = Outcome.returned res (some e) →
        (h.ExecuteTest env (some req)).response
          = some (500, { Code := 500, Message := e, Data := none }))) := by
  constructor
  · intro hbad
    by_cases hu : req.Prompts.User = ""
    · simp [TestHandler.ExecuteTest, hu, StatusBadRequest, NewErrorResponse]
    · have hm : req.Models = [] := hbad.resolve_left hu
      simp [TestHandler.ExecuteTest, hu, hm, StatusBadRequest, NewErrorResponse]
  · intro hu hm
    have hlen : ¬ req.Models.length = 0 := fun h0 => hm (List.length_eq_zero.mp h0)
    refine ⟨?_, ?_, ?_⟩
    · simp only [TestHandler.ExecuteTest, hu, hlen, if_false]
      cases h.service.ExecuteTest env req with
      | panicked => rfl
      | returned result err => cases err <;> rfl
    · intro res hres
      simp [TestHandler.ExecuteTest, hu, hlen, hres, StatusOK, NewSuccessResponse]
    · intro res e hres
      simp [TestHandler.ExecuteTest, hu, hlen, hres, StatusInternalServerError,
        NewErrorResponse]

/-- C10 at the worked request: one service call, answer 200 with the aggregate. -/
theorem handler_executeTest_witness :
    (TestHandler.ExecuteTest { service := demo.svc } demo.env (some demo.req)).serviceCalls
        = [demo.req] ∧
      (TestHandler.ExecuteTest { service := demo.svc } demo.env (some demo.req)).response
        = some (200, { Code := 200, Message := "success", Data := some demo.result }) :=
  have h := (handler_executeTest { service := demo.svc } demo.env demo.req).2
    (by decide) (by decide)
  ⟨h.1, h.2.1 (some demo.result) (by decide)⟩

end handler

/-! ## The zhipu provider: `Call` -/

namespace zhipu

open model

/-- Every way `Call` returns, as the path taken and the pair returned. -/
theorem call_cases (p : Provider) (env : CallEnv) (req : CallProvidersRequest)
    (resp : Option ModelResponse) (err : Option String)
    (h : p.Call env req = CallResult.returned resp err) :
    (∃ e name, err = some e ∧
      (name = req.Models.Name ∨
        (env.chatModelErr = none ∧ env.agentErr = some e ∧ name = "gpt-5-mini")) ∧
      resp = some { ModelName := name, Provider := "zhipu", Content := "", Success := false,
                    Error := e, TokensUsed := 0,
                    ResponseTime := (env.now1.Sub env.startTime).Milliseconds,
                    StartTime := env.startTime, EndTime := env.now2 }) ∨
    (∃ content, err = none ∧
      resp = some { ModelName := req.Models.Name, Provider := "zhipu", Content := content,
                    Success := true, Error := "", TokensUsed := 0,
                    ResponseTime := (env.now1.Sub env.startTime).Milliseconds,
                    StartTime := env.startTime, EndTime := env.now1 }) := by
  unfold Provider.Call at h
  cases hcm : env.chatModelErr with
  | some e =>
    simp only [hcm] at h
    injection h with h1 h2
    exact Or.inl ⟨e, req.Models.Name, h2.symm, Or.inl rfl, h1.symm⟩
  | none =>
    simp only [hcm] at h
    cases hag : env.agentErr with
    | some e =>
      simp only [hag] at h
      injection h with h1 h2
      exact Or.inl ⟨e, "gpt-5-mini", h2.symm, Or.inr ⟨rfl, rfl, rfl⟩, h1.symm⟩
    | none =>
      simp only [hag] at h
      split at h
      · rename_i e _
        injection h with h1 h2
        exact Or.inl ⟨e, req.Models.Name, h2.symm, Or.inl rfl, h1.symm⟩
      · cases h
      · rename_i response _
        injection h with h1 h2
        exact Or.inr ⟨response.Content, h2.symm, h1.symm⟩

/-- On the success path the response time is the stored interval in whole milliseconds. -/
theorem call_success_responseTime (p : Provider) (env : CallEnv)
    (req : CallProvidersRequest) (r : ModelResponse)
    (h : p.Call env req = CallResult.returned (some r) none) :
    r.ResponseTime = (r.EndTime.Sub r.StartTime).Milliseconds := by
  rcases call_cases p env req _ _ h with ⟨e, _, he, _, _⟩ | ⟨content, _, hr⟩
  · cases he
  · injection hr with hr
    subst hr
    rfl

/-- C11, at the failing inputs: the failure response of `Call` and the failure entry of
`ExecuteTest` are both built from two clock readings; when a millisecond boundary lies
between them, `ResponseTime` is 0 while `EndTime - StartTime` is one whole millisecond. -/
theorem failure_responseTime_not_interval :
    (∃ r, demo.zp.Call demo.callNoModel demo.callReq
        = CallResult.returned (some r) (some "invalid base url") ∧
      r.StartTime = 0 ∧ r.EndTime = 1000001 ∧ r.ResponseTime = 0 ∧
      (r.EndTime.Sub r.StartTime).Milliseconds = 1) ∧
    (∃ t v, demo.svc.ExecuteTest demo.envTick demo.reqOne
        = service.Outcome.returned (some t) none ∧
      t.Results.get "glm-4" = some v ∧ v.ResponseTime = 0 ∧
      (v.EndTime.Sub v.StartTime).Milliseconds = 1) :=
  ⟨⟨{ ModelName := "glm-4", Provider := "zhipu", Content := "", Success := false,
      Error := "invalid base url", TokensUsed := 0, ResponseTime := 0, StartTime := 0,
      EndTime := 1000001 }, by decide, by decide, by decide, by decide, by decide⟩,
   ⟨{ Results :=
        [("glm-4", { ModelName := "glm-4", Provider := "zhipu", Content := "",
                     Error := "context canceled", Success := false, TokensUsed := 0,
                     ResponseTime := 0, StartTime := 20000000, EndTime := 21000000 })],
      StartTime := 0, EndTime := 60000000, Duration := 60 },
    { ModelName := "glm-4", Provider := "zhipu", Content := "",
      Error := "context canceled", Success := false, TokensUsed := 0,
      ResponseTime := 0, StartTime := 20000000, EndTime := 21000000 },
    by decide, by decide, by decide, by decide⟩⟩

/-- C12: whenever `Call` returns, the error and the response agree: with a nil error the
response is there with `Success = true` and an empty `Error`; with an error the response
is there with `Success = false`, empty `Content` and `Error` equal to the error's
message. -/
theorem call_error_response_consistent (p : Provider) (env : CallEnv)
    (req : CallProvidersRequest) (resp : Option ModelResponse) (err : Option String)
    (h : p.Call env req = CallResult.returned resp err) :
    (err = none → ∃ r, resp = some r ∧ r.Success = true ∧ r.Error = "") ∧
    (∀ e, err = some e →
      ∃ r, resp = some r ∧ r.Success = false ∧ r.Content = "" ∧ r.Error = e) := by
  rcases call_cases p env req _ _ h with ⟨e, name, he, _, hr⟩ | ⟨content, he, hr⟩
  · subst he hr
    refine ⟨fun h0 => (by cases h0), ?_⟩
    intro e' he'
    injection he' with he'
    subst he'
    exact ⟨_, rfl, rfl, rfl, rfl⟩
  · subst he hr
    exact ⟨fun _ => ⟨_, rfl, rfl, rfl⟩, fun e' he' => by cases he'⟩

/-- C12 at a call whose generation fails upstream. -/
theorem call_error_response_consistent_witness :
    ∃ r, some ({ ModelName := "glm-4", Provider := "zhipu", Content := "", Success := false,
                 Error := "upstream error", TokensUsed := 0, ResponseTime := 50,
                 StartTime := 1000000, EndTime := 51000100 } : ModelResponse) = some r ∧
      r.Success = false ∧ r.Content = "" ∧ r.Error = "upstream error" :=
  (call_error_response_consistent demo.zp demo.callUpstream demo.callReq
    (some { ModelName := "glm-4", Provider := "zhipu", Content := "", Success := false,
            Error := "upstream error", TokensUsed := 0, ResponseTime := 50,
            StartTime := 1000000, EndTime := 51000100 })
    (some "upstream error") (by decide)).2 "upstream error" rfl

/-- Every response `Call` returns names the provider "zhipu", and carries the requested
model name on every path but the agent-creation failure. -/
theorem call_provider_and_name (p : Provider) (env : CallEnv) (req : CallProvidersRequest)
    (r : ModelResponse) (err : Option String)
    (h : p.Call env req = CallResult.returned (some r) err) :
    r.Provider = "zhipu" ∧
      (r.ModelName = req.Models.Name ∨
        (env.chatModelErr = none ∧ env.agentErr ≠ none ∧ r.ModelName = "gpt-5-mini")) := by
  rcases call_cases p env req _ _ h with ⟨e, name, _, hn, hr⟩ | ⟨content, _, hr⟩
  · injection hr with hr
    subst hr
    refine ⟨rfl, ?_⟩
    rcases hn with hn | ⟨h1, h2, h3⟩
    · exact Or.inl hn
    · exact Or.inr ⟨h1, by simp [h2], h3⟩
  · injection hr with hr
    subst hr
    exact ⟨rfl, Or.inl rfl⟩

/-- C15, at the failing input: the model "glm-4" is requested, the agent cannot be
created, and the response returned carries the model name "gpt-5-mini" (and the provider
"zhipu"). -/
theorem call_agent_failure_modelName :
    ∃ r, demo.zp.Call demo.callNoAgent demo.callReq
        = CallResult.returned (some r) (some "agent init failed") ∧
      demo.callReq.Models.Name = "glm-4" ∧ r.ModelName = "gpt-5-mini" ∧
      r.ModelName ≠ demo.callReq.Models.Name ∧ r.Provider = "zhipu" :=
  ⟨{ ModelName := "gpt-5-mini", Provider := "zhipu", Content := "", Success := false,
     Error := "agent init failed", TokensUsed := 0, ResponseTime := 50,
     StartTime := 1000000, EndTime := 51000100 },
   by decide, by decide, by decide, by decide, by decide⟩

/-! ## The zhipu provider: `Stream` -/

theorem produce_never (cancelled : Nat → Bool) (l : List String) (i : Nat)
    (h : ∀ j, j < l.length → cancelled (i + j) = false) :
    produce cancelled i l = l.map contentChunk ++ [endChunk] := by
  induction l generalizing i with
  | nil => rfl
  | cons c rest ih =>
    have h0 : cancelled i = false := by simpa using h 0 (by simp)
    have hrest : ∀ j, j < rest.length → cancelled (i + 1 + j) = false := by
      intro j hj
      have := h (j + 1) (by simpa using hj)
      rwa [show i + (j + 1) = i + 1 + j by omega] at this
    simp [produce, h0, ih (i + 1) hrest]

theorem produce_cancelled (cancelled : Nat → Bool) (l : List String) (i k : Nat)
    (hk : k < l.length) (hc : cancelled (i + k) = true)
    (h : ∀ j, j < k → cancelled (i + j) = false) :
    produce cancelled i l = (l.take k).map contentChunk := by
  induction l generalizing i k with
  | nil => simp at hk
  | cons c rest ih =>
    cases k with
    | zero =>
      have hc' : cancelled i = true := by simpa using hc
      simp [produce, hc']
    | succ k =>
      have h0 : cancelled i = false := by simpa using h 0 (by omega)
      have hk' : k < rest.length := by simpa using hk
      have hc' : cancelled (i + 1 + k) = true := by
        rwa [show i + (k + 1) = i + 1 + k by omega] at hc
      have hrest : ∀ j, j < k → cancelled (i + 1 + j) = false := by
        intro j hj
        have := h (j + 1) (by omega)
        rwa [show i + (j + 1) = i + 1 + j by omega] at this
      simp [produce, h0, ih (i + 1) k hk' hc' hrest]

/-- C13 as stated fails: when the producer sees the cancelled context before its third
send, the channel delivers two chunks, neither with `Done = true`, and is closed; when it
sees it before the first send, the channel delivers nothing. -/
theorem stream_cancelled_no_terminal :
    (demo.zp.Stream (fun i => decide (i = 2)) demo.callReq).1
      = [{ Model := "gpt-4", Content := "这是", Done := false, Error := "" },
         { Model := "gpt-4", Content := "zhipu", Done := false, Error := "" }] ∧
    (∀ c ∈ (demo.zp.Stream (fun i => decide (i = 2)) demo.callReq).1, c.Done = false) ∧
    (demo.zp.Stream (fun _ => true) demo.callReq).1 = [] := by
  decide

/-- C13 amended: in a run whose producer never sees the context cancelled, the channel
delivers the six fragments and then the end marker: a non-empty sequence whose final
element has `Done = true` and no earlier one has; in a run whose producer first sees the
cancelled context before its send number `k` (counted from 0), the channel delivers
exactly the first `k` fragments, all with `Done = false`, and no end marker. -/
theorem stream_sequence (p : Provider) (cancelled : Nat → Bool)
    (req : CallProvidersRequest) :
    (p.Stream cancelled req).2 = none ∧
    ((∀ i, i < 6 → cancelled i = false) →
      (p.Stream cancelled req).1
        = [{ Model := "gpt-4", Content := "这是", Done := false, Error := "" },
           { Model := "gpt-4", Content := "zhipu", Done := false, Error := "" },
           { Model := "gpt-4", Content := "模型的", Done := false, Error := "" },
           { Model := "gpt-4", Content := "流式", Done := false, Error := "" },
           { Model := "gpt-4", Content := "响应", Done := false, Error := "" },
           { Model := "gpt-4", Content := "。", Done := false, Error := "" },
           { Model := "gpt-4", Content := "", Done := true, Error := "" }] ∧
      (p.Stream cancelled req).1 ≠ [] ∧
      ∃ init last, (p.Stream cancelled req).1 = init ++ [last] ∧ init.length = 6 ∧
        last.Done = true ∧ ∀ c ∈ init, c.Done = false) ∧
    (∀ k, k < 6 → cancelled k = true → (∀ i, i < k → cancelled i = false) →
      (p.Stream cancelled req).1
        = List.take k
          [{ Model := "gpt-4", Content := "这是", Done := false, Error := "" },
           { Model := "gpt-4", Content := "zhipu", Done := false, Error := "" },
           { Model := "gpt-4", Content := "模型的", Done := false, Error := "" },
           { Model := "gpt-4", Content := "流式", Done := false, Error := "" },
           { Model := "gpt-4", Content := "响应", Done := false, Error := "" },
           { Model := "gpt-4", Content := "。", Done := false, Error := "" }] ∧
      (p.Stream cancelled req).1.length = k ∧
      ∀ c ∈ (p.Stream cancelled req).1, c.Done = false) := by
  refine ⟨rfl, ?_, ?_⟩
  · intro h
    have hseq := produce_never cancelled streamChunks 0
      (fun j hj => by simpa using h j (by simpa [streamChunks] using hj))
    simp only [Provider.Stream]
    rw [hseq]
    refine ⟨rfl, by simp, _, _, rfl, by simp [streamChunks], rfl, ?_⟩
    intro c hc
    obtain ⟨_, _, rfl⟩ := List.mem_map.mp hc
    rfl
  · intro k hk hc h
    have hseq := produce_cancelled cancelled streamChunks 0 k
      (by simpa [streamChunks] using hk) (by simpa using hc)
      (fun j hj => by simpa using h j hj)
    simp only [Provider.Stream]
    rw [hseq]
    refine ⟨?_, ?_, ?_⟩
    · rw [List.map_take]
      rfl
    · have hlen : streamChunks.length = 6 := rfl
      simp only [List.length_map, List.length_take, hlen]
      omega
    · intro c hc
      obtain ⟨_, _, rfl⟩ := List.mem_map.mp hc
      rfl

/-- C13 amended, at a run without cancellation: the six fragments, then the terminal
chunk. -/
theorem stream_sequence_witness :
    (demo.zp.Stream (fun _ => false) demo.callReq).1
        = [{ Model := "gpt-4", Content := "这是", Done := false, Error := "" },
           { Model := "gpt-4", Content := "zhipu", Done := false, Error := "" },
           { Model := "gpt-4", Content := "模型的", Done := false, Error := "" },
           { Model := "gpt-4", Content := "流式", Done := false, Error := "" },
           { Model := "gpt-4", Content := "响应", Done := false, Error := "" },
           { Model := "gpt-4", Content := "。", Done := false, Error := "" },
           { Model := "gpt-4", Content := "", Done := true, Error := "" }] ∧
      (demo.zp.Stream (fun _ => false) demo.callReq).1 ≠ [] ∧
      ∃ init last, (demo.zp.Stream (fun _ => false) demo.callReq).1 = init ++ [last] ∧
        init.length = 6 ∧ last.Done = true ∧ ∀ c ∈ init, c.Done = false :=
  (stream_sequence demo.zp (fun _ => false) demo.callReq).2.1 (fun _ _ => rfl)

end zhipu

/-! ## The registry's keys -/

namespace service

open model

theorem initOne_get_ne (s : MultiModelService) (key k : String)
    (mk : base.ProviderConfig → base.ModelProvider) (h : k ≠ key) :
    (s.initOne key mk).providers.get k = s.providers.get k := by
  unfold MultiModelService.initOne
  split
  · split
    · exact GoMap.get_set_ne _ _ _ _ h
    · rfl
  · rfl

theorem initOne_get_key (s : MultiModelService) (key : String)
    (mk : base.ProviderConfig → base.ModelProvider) :
    (s.initOne key mk).providers.get key =
      match s.config.Models.get key with
      | some mc => if mc.Enabled then some (mk (providerConfig mc)) else s.providers.get key
      | none => s.providers.get key := by
  unfold MultiModelService.initOne
  split
  · split
    · exact GoMap.get_set_self _ _ _
    · rfl
  · rfl

theorem initOne_keys (s : MultiModelService) (key k : String)
    (mk : base.ProviderConfig → base.ModelProvider)
    (h : k ∈ (s.initOne key mk).providers.keys) : k = key ∨ k ∈ s.providers.keys := by
  unfold MultiModelService.initOne at h
  split at h
  · split at h
    · exact (GoMap.mem_keys_set _ _ _ _).mp h
    · exact Or.inr h
  · exact Or.inr h

/-- The lookup of `key` after one registration block run on a registry without `key`. -/
theorem initOne_registers (s : MultiModelService) (key : String)
    (mk : base.ProviderConfig → base.ModelProvider) (cfg : config.Config)
    (hcfg : s.config = cfg) (hfresh : s.providers.get key = none) :
    ((s.initOne key mk).providers.get key ≠ none ↔
        ∃ mc, cfg.Models.get key = some mc ∧ mc.Enabled = true) ∧
      ∀ p, (s.initOne key mk).providers.get key = some p →
        ∃ mc, cfg.Models.get key = some mc ∧ p = mk (providerConfig mc) := by
  subst hcfg
  rw [initOne_get_key, hfresh]
  cases hget : s.config.Models.get key with
  | none => simp
  | some mc =>
    by_cases hen : mc.Enabled = true
    · simp only [hen, if_true]
      exact ⟨⟨fun _ => ⟨mc, rfl, hen⟩, fun _ => by simp⟩,
        fun p hp => ⟨mc, rfl, (Option.some.inj hp).symm⟩⟩
    · simp [hen]

/-- C14: after `NewMultiModelService cfg`, each of the keys "openai", "deepseek",
"minimax", "zhipu" is in the registry exactly when `cfg.Models` has an entry for it with
`Enabled = true`; the registry has no other key; and the provider stored under "zhipu" is
the zhipu provider, whose `Name` is "zhipu". -/
theorem registry_after_new (cfg : config.Config) :
    (∀ k, k ∈ ["openai", "deepseek", "minimax", "zhipu"] →
      ((NewMultiModelService cfg).providers.get k ≠ none ↔
        ∃ mc, cfg.Models.get k = some mc ∧ mc.Enabled = true)) ∧
    (∀ k, k ∈ (NewMultiModelService cfg).providers.keys →
      k ∈ ["openai", "deepseek", "minimax", "zhipu"]) ∧
    (∀ p, (NewMultiModelService cfg).providers.get "zhipu" = some p →
      ∃ zp, p = base.ModelProvider.zhipu zp ∧ zp.Name = "zhipu") := by
  let s0 : MultiModelService := { providers := [], config := cfg }
  let s1 := s0.initOne "openai" base.ModelProvider.openai
  let s2 := s1.initOne "deepseek" base.ModelProvider.deepseek
  let s3 := s2.initOne "minimax" base.ModelProvider.minimax
  let mkZhipu : base.ProviderConfig → base.ModelProvider :=
    fun c => base.ModelProvider.zhipu (zhipu.NewProvider c)
  have hnew : NewMultiModelService cfg = s3.initOne "zhipu" mkZhipu := rfl
  have hc1 : s1.config = cfg := initOne_config _ _ _
  have hc2 : s2.config = cfg := (initOne_config _ _ _).trans hc1
  have hc3 : s3.config = cfg := (initOne_config _ _ _).trans hc2
  have h0 : ∀ k, s0.providers.get k = none := fun _ => rfl
  have hopenai := initOne_registers s0 "openai" base.ModelProvider.openai cfg rfl (h0 _)
  have hdeepseek := initOne_registers s1 "deepseek" base.ModelProvider.deepseek cfg hc1
    (by rw [initOne_get_ne _ _ _ _ (by decide)]; exact h0 _)
  have hminimax := initOne_registers s2 "minimax" base.ModelProvider.minimax cfg hc2
    (by rw [initOne_get_ne _ _ _ _ (by decide), initOne_get_ne _ _ _ _ (by decide)]
        exact h0 _)
  have hzhipu := initOne_registers s3 "zhipu" mkZhipu cfg hc3
    (by rw [initOne_get_ne _ _ _ _ (by decide), initOne_get_ne _ _ _ _ (by decide),
          initOne_get_ne _ _ _ _ (by decide)]
        exact h0 _)
  rw [hnew]
  refine ⟨?_, ?_, ?_⟩
  · intro k hk
    simp only [List.mem_cons, List.mem_singleton, List.not_mem_nil, or_false] at hk
    rcases hk with rfl | rfl | rfl | rfl
    · rw [initOne_get_ne _ _ _ _ (by decide), initOne_get_ne _ _ _ _ (by decide),
        initOne_get_ne _ _ _ _ (by decide)]
      exact hopenai.1
    · rw [initOne_get_ne _ _ _ _ (by decide), initOne_get_ne _ _ _ _ (by decide)]
      exact hdeepseek.1
    · rw [initOne_get_ne _ _ _ _ (by decide)]
      exact hminimax.1
    · exact hzhipu.1
  · intro k hk
    simp only [List.mem_cons, List.mem_singleton, List.not_mem_nil, or_false]
    rcases initOne_keys _ _ _ _ hk with h | hk
    · exact Or.inr (Or.inr (Or.inr h))
    · rcases initOne_keys _ _ _ _ hk with h | hk
      · exact Or.inr (Or.inr (Or.inl h))
      · rcases initOne_keys _ _ _ _ hk with h | hk
        · exact Or.inr (Or.inl h)
        · rcases initOne_keys _ _ _ _ hk with h | hk
          · exact Or.inl h
          · cases hk
  · intro p hp
    obtain ⟨mc, _, rfl⟩ := hzhipu.2 p hp
    exact ⟨zhipu.NewProvider (providerConfig mc), rfl, rfl⟩

/-- C14 at a configuration with zhipu enabled, openai disabled and an enabled backend the
service does not know: only "zhipu" is registered. -/
theorem registry_after_new_witness :
    ((NewMultiModelService demo.cfgTwo).providers.get "zhipu" ≠ none ↔
        ∃ mc, demo.cfgTwo.Models.get "zhipu" = some mc ∧ mc.Enabled = true) ∧
      ((NewMultiModelService demo.cfgTwo).providers.get "openai" ≠ none ↔
        ∃ mc, demo.cfgTwo.Models.get "openai" = some mc ∧ mc.Enabled = true) ∧
      (NewMultiModelService demo.cfgTwo).providers.keys = ["zhipu"] :=
  ⟨(registry_after_new demo.cfgTwo).1 "zhipu" (by decide),
   (registry_after_new demo.cfgTwo).1 "openai" (by decide), by decide⟩

end service

end MultiAgentTesting
